import Mathlib

/-!
The package `houdini`: the Backend registry.

A shallow embedding of `backend.go` (package `houdini`): the registry of containers kept by
`Backend`, its admission control, handle generation, property filtering, lookup and destroy;
of `setUser` from `set_user.go`; and of the streaming of a directory tree in and out of a
container, which follows the spec.

Conventions of the embedding

* A Go `map[string]V` is an association list with pairwise distinct keys (`GoMap V`);
  `m[k] = v` is `AList.insert`, `delete(m, k)` is `AList.erase`, `v, ok := m[k]` is
  `AList.lookup`, and `for k, v := range m` walks `entries` (Go leaves the order unspecified;
  the properties below do not depend on it). A nil map is the empty map.
* A method with a pointer receiver takes the receiver's state and returns an `Outcome`:
  the state afterwards, the calls it made to the host (file system, container processes) in
  order, and the value it returned.
* The host is a parameter (`Host`): it tells whether a given call to `fs.MkdirAll`,
  `fs.RemoveAll` or `container.Stop` fails, and with which error.
* `uint32` and `uint64` values are natural numbers, reduced modulo `2 ^ 32` where the code
  can overflow.
-/

namespace Houdini

/-- An error value produced outside this package (by the file system or by a process). -/
structure HostError where
  msg : String
  deriving DecidableEq, Repr

/-- The error values that the methods of `Backend` return. -/
inductive Error where
  /-- The package variable `ErrContainerNotFound`, `errors.New("container not found")`. -/
  | ErrContainerNotFound
  /-- The error `atc.WorkerNotCreatedError{errors.New(msg)}`. -/
  | WorkerNotCreatedError (msg : String)
  /-- An error returned verbatim from a call to the host. -/
  | host (e : HostError)
  deriving DecidableEq, Repr

/-- A Go `map[string]V`. -/
abbrev GoMap (V : Type) : Type := AList (fun _ : String => V)

/-- The type `garden.Properties`, a `map[string]string`. -/
abbrev Properties : Type := GoMap String

/-- The fields of `garden.ContainerSpec` that `backend.go` reads or writes. -/
structure ContainerSpec where
  Handle : String
  Properties : Properties
  deriving DecidableEq

/-- The type `garden.Capacity`, with the one field that `Backend.Capacity` sets. -/
structure Capacity where
  MaxContainers : Nat
  deriving DecidableEq, Repr

/-- Modelled from the spec: the `container` struct, declared in a file of the package that is
not among the sources. The spec gives it an immutable `handle`, an immutable `workDir` and a
mutable `properties` mapping; the value kept here is the state of one container. -/
structure container where
  handle : String
  workDir : String
  properties : Properties
  deriving DecidableEq

/-- Modelled from the spec: `newContainer(spec, dir)`, declared with `container`. The
container takes its handle and its initial properties from the spec and `dir` as its working
directory. -/
def newContainer (spec : ContainerSpec) (workDir : String) : container :=
  { handle := spec.Handle, workDir := workDir, properties := spec.Properties }

/-- Modelled from the spec: `container.Handle()`, which returns the immutable handle. -/
def container.Handle (c : container) : String := c.handle

/-- Modelled from the spec: `container.currentProperties()`, a point-in-time copy of the
property map. -/
def container.currentProperties (c : container) : Properties := c.properties

/-- The calls to the host that `Backend` makes. -/
inductive Effect where
  /-- The call `fs.MkdirAll(dir, 0755)`. -/
  | MkdirAll (dir : String)
  /-- The call `fs.RemoveAll(dir)`. -/
  | RemoveAll (dir : String)
  /-- The call `c.Stop(kill)`. -/
  | Stop (c : container) (kill : Bool)
  deriving DecidableEq

/-- What the host answers: `none` is a nil error. -/
structure Host where
  MkdirAll : String → Option HostError
  RemoveAll : String → Option HostError
  Stop : container → Bool → Option HostError

/-- The state of a method call once it has returned. -/
structure Outcome (σ α : Type) where
  state : σ
  effects : List Effect
  result : α

/-- The struct `Backend` (the lock `containersL` holds no data). -/
structure Backend where
  containersDir : String
  containers : GoMap container
  containerNum : Nat
  deriving DecidableEq

/-! ## Library functions used by `backend.go` -/

/-- The digits of `strconv`: `"0123456789abcdefghijklmnopqrstuvwxyz"`. -/
def digits : List Char := "0123456789abcdefghijklmnopqrstuvwxyz".toList

/-- The digit of `d` in `digits`. -/
def digitOf (d : Nat) : Char := digits.getD d '0'

/-- The loop of `strconv.formatBits`: the digits of `u` in base `base`, most significant
first, in front of `acc`. A `uint64` has at most 64 digits, so `fuel = 64` is enough. -/
def formatBits : Nat → Nat → Nat → List Char → List Char
  | 0, _, _, acc => acc
  | fuel + 1, u, base, acc =>
    if u < base then digitOf u :: acc
    else formatBits fuel (u / base) base (digitOf (u % base) :: acc)

/-- The function `strconv.AppendUint(dst, i, base)` for `2 ≤ base ≤ 36`. -/
def AppendUint (dst : List Char) (i : Nat) (base : Nat) : List Char :=
  dst ++ formatBits 64 i base []

/-- The walk of `filepath.Clean` over the elements of a path: drops empty and `.` elements,
and lets `..` cancel the element before it (at the root, `..` is dropped). `acc` is the
output so far, last element first. -/
def cleanElems (rooted : Bool) : List String → List String → List String
  | acc, [] => acc.reverse
  | acc, e :: es =>
    if e = "" ∨ e = "." then cleanElems rooted acc es
    else if e = ".." then
      match acc with
      | [] => if rooted then cleanElems rooted [] es else cleanElems rooted [".."] es
      | a :: acc' =>
        if a = ".." then cleanElems rooted (".." :: a :: acc') es
        else cleanElems rooted acc' es
    else cleanElems rooted (e :: acc) es

/-- Splits a list of characters at every `/`. -/
def splitSlash : List Char → List (List Char)
  | [] => [[]]
  | c :: cs =>
    match splitSlash cs with
    | [] => [[c]]
    | w :: ws => if c = '/' then [] :: w :: ws else (c :: w) :: ws

/-- The function `filepath.Clean` on a system whose separator is `/`. -/
def Clean (path : String) : String :=
  if path = "" then "."
  else
    let rooted := path.toList.head? = some '/'
    let out := cleanElems rooted [] ((splitSlash path.toList).map String.mk)
    let s := "/".intercalate out
    if rooted then "/" ++ s else if s = "" then "." else s

/-- The function `filepath.Join`: the elements from the first non-empty one on are joined with
`/` and the result is cleaned; when every element is empty the result is empty. -/
def Join (elem : List String) : String :=
  match elem.dropWhile (fun e => e = "") with
  | [] => ""
  | es => Clean ("/".intercalate es)

/-! ## The methods of `Backend` -/

namespace Backend

/-- The constructor `NewBackend(containersDir)`; `now` is `time.Now().UnixNano()`. -/
def NewBackend (containersDir : String) (now : Nat) : Backend :=
  { containersDir := containersDir, containers := ∅, containerNum := now % 2 ^ 32 }

/-- The method `Backend.Capacity`. -/
def Capacity (_backend : Backend) : Capacity × Option Error :=
  ({ MaxContainers := 1 }, none)

/-- The method `Backend.generateContainerID`: adds one to the counter and writes eleven
base-32 digits of the new value. -/
def generateContainerID (backend : Backend) : Backend × String :=
  let containerNum := (backend.containerNum + 1) % 2 ^ 32
  let containerID := (List.range 11).foldl
    (fun containerID i => AppendUint containerID ((containerNum >>> (55 - (i + 1) * 5)) &&& 31) 32)
    []
  ({ backend with containerNum := containerNum }, String.mk containerID)

/-- The function `containerHasProperties`. -/
def containerHasProperties (c : container) (properties : Properties) : Bool :=
  let containerProps := c.currentProperties
  properties.entries.all fun kv =>
    match containerProps.lookup kv.1 with
    | none => false
    | some cval => cval = kv.2

/-- The loop of `Backend.Create` that counts the containers without an exit status. -/
def countActive (containers : GoMap container) : Nat :=
  containers.entries.foldl
    (fun activeContainers e =>
      match e.2.currentProperties.lookup "concourse:exit-status" with
      | none => activeContainers + 1
      | some _ => activeContainers)
    0

/-- The method `Backend.Create`. -/
def Create (host : Host) (backend : Backend) (spec : ContainerSpec) :
    Outcome Backend (Except Error container) :=
  match backend.Capacity with
  | (_, some err) => ⟨backend, [], .error err⟩
  | (capacity, none) =>
    let activeContainers := countActive backend.containers
    if activeContainers ≥ capacity.MaxContainers then
      ⟨backend, [], .error (.WorkerNotCreatedError
        "worker already has the maximum number of active containers")⟩
    else
      let (backend, id) := backend.generateContainerID
      let spec := if spec.Handle = "" then { spec with Handle := id } else spec
      let dir := Join [backend.containersDir, id]
      match host.MkdirAll dir with
      | some err => ⟨backend, [.MkdirAll dir], .error (.host err)⟩
      | none =>
        let container := newContainer spec dir
        ⟨{ backend with containers := backend.containers.insert spec.Handle container },
          [.MkdirAll dir], .ok container⟩

/-- The method `Backend.Destroy`. -/
def Destroy (host : Host) (backend : Backend) (handle : String) :
    Outcome Backend (Option Error) :=
  match backend.containers.lookup handle with
  | none => ⟨backend, [], none⟩
  | some container =>
    match host.Stop container false with
    | some err => ⟨backend, [.Stop container false], some (.host err)⟩
    | none =>
      match host.RemoveAll container.workDir with
      | some err =>
        ⟨backend, [.Stop container false, .RemoveAll container.workDir], some (.host err)⟩
      | none =>
        ⟨{ backend with containers := backend.containers.erase handle },
          [.Stop container false, .RemoveAll container.workDir], none⟩

/-- The method `Backend.filterContainers`. -/
def filterContainers (backend : Backend) (filter : Properties) :
    List container × Option Error :=
  let matchingContainers := backend.containers.entries.foldl
    (fun matchingContainers e =>
      if containerHasProperties e.2 filter then matchingContainers ++ [e.2]
      else matchingContainers)
    []
  (matchingContainers, none)

/-- The method `Backend.Containers`. -/
def Containers (backend : Backend) (filter : Properties) :
    Outcome Backend (List container × Option Error) :=
  ⟨backend, [], backend.filterContainers filter⟩

/-- The method `Backend.Lookup`. -/
def Lookup (backend : Backend) (handle : String) :
    Outcome Backend (Except Error container) :=
  match backend.containers.lookup handle with
  | none => ⟨backend, [], .error .ErrContainerNotFound⟩
  | some container => ⟨backend, [], .ok container⟩

/-- The loop of `Backend.Stop`: `Destroy` of the handle of each container in turn; the result
of each `Destroy` is dropped. -/
def destroyEach (host : Host) : Backend → List container → Outcome Backend Unit
  | backend, [] => ⟨backend, [], ()⟩
  | backend, container :: containers =>
    let destroyed := backend.Destroy host container.Handle
    let rest := destroyEach host destroyed.state containers
    ⟨rest.state, destroyed.effects ++ rest.effects, ()⟩

/-- The method `Backend.Stop`. -/
def Stop (host : Host) (backend : Backend) : Outcome Backend Unit :=
  let containers := (backend.Containers ∅).result.1
  destroyEach host backend containers

end Backend

/-! ## The function `setUser` of `set_user.go`

Strings are sequences of characters here; the three patterns and the names of the variables
are ASCII, so matching on characters and matching on the bytes of `[]byte(envVar)` agree. -/

/-- The fields of `user.User` that `setUser` reads. -/
structure User where
  Uid : String
  Gid : String
  Username : String
  HomeDir : String

/-- The type `syscall.Credential`, with the fields that `setUser` sets. -/
structure Credential where
  Uid : Nat
  Gid : Nat
  deriving DecidableEq

/-- The fields of `exec.Cmd` that `setUser` reads or writes. -/
structure Cmd where
  Dir : String
  Env : List String
  SysProcAttr : Option Credential
  deriving DecidableEq

/-- The field of `garden.ProcessSpec` that `setUser` reads. -/
structure ProcessSpec where
  User : String

/-- What the operating system answers to `setUser`: the user database (`user.Lookup`), the
calls that `filepath.Walk` makes to its callback for a root, each a name with the error it
passes, and `os.Chown`. -/
structure OS where
  Lookup : String → Except HostError User
  Walk : String → List (String × Option HostError)
  Chown : String → Nat → Nat → Option HostError

/-- The function `strconv.ParseUint(s, 10, bitSize)`: a non-empty row of decimal digits
whose value is below `2 ^ bitSize`. -/
def ParseUint (s : String) (bitSize : Nat) : Except HostError Nat :=
  if s = "" then .error ⟨"invalid syntax"⟩
  else if s.toList.all (fun ch => '0' ≤ ch ∧ ch ≤ '9') then
    let n := s.toList.foldl (fun n ch => n * 10 + (ch.toNat - '0'.toNat)) 0
    if n < 2 ^ bitSize then .ok n else .error ⟨"value out of range"⟩
  else .error ⟨"invalid syntax"⟩

/-- The items of the regular expressions of `set_user.go`. -/
inductive Re where
  /-- The item `^`, the beginning of the text. -/
  | bol
  /-- A literal character. -/
  | char (c : Char)
  /-- The item `.*`, any number of characters other than a newline. -/
  | dotStar
  deriving DecidableEq

/-- The function `regexp.MustCompile` on patterns made of `^`, `.*` and literal characters. -/
def compile : List Char → List Re
  | [] => []
  | '^' :: cs => .bol :: compile cs
  | '.' :: '*' :: cs => .dotStar :: compile cs
  | c :: cs => .char c :: compile cs

/-- The item `.*` followed by `k`: `k` matches here, or after one more character that is
not a newline. -/
def dotStarThen (k : Bool → List Char → Bool) : Bool → List Char → Bool
  | atStart, [] => k atStart []
  | atStart, x :: xs => k atStart (x :: xs) || (x != '\n' && dotStarThen k false xs)

/-- The expression `re` matches a prefix of the text `xs`; `atStart` tells whether `xs` is
the whole text. -/
def matchAt : List Re → Bool → List Char → Bool
  | [], _, _ => true
  | .bol :: re, atStart, xs => atStart && matchAt re atStart xs
  | .char c :: re, _, xs =>
    match xs with
    | [] => false
    | x :: xs' => x == c && matchAt re false xs'
  | .dotStar :: re, atStart, xs => dotStarThen (fun b ys => matchAt re b ys) atStart xs

/-- The expression `re` matches somewhere in the text `xs`. -/
def search (re : List Re) : Bool → List Char → Bool
  | atStart, [] => matchAt re atStart []
  | atStart, x :: xs => matchAt re atStart (x :: xs) || search re false xs

/-- The method `Regexp.Match`: the text contains a match of the expression. -/
def Match (re : List Re) (b : String) : Bool := search re true b.toList

/-- The function `chownR`: `filepath.Walk` with a callback that calls `os.Chown` on every
name that the walk reached without an error, and passes the error on otherwise; the walk
ends at the first error that the callback returns. -/
def chownR (os : OS) (path : String) (uid gid : Nat) : Option HostError :=
  (os.Walk path).foldl
    (fun result visit =>
      match result with
      | some err => some err
      | none =>
        match visit.2 with
        | none => os.Chown visit.1 uid gid
        | some err => some err)
    none

/-- The function `setUser`; it returns the command as it has left it, and the error. -/
def setUser (os : OS) (cmd : Cmd) (spec : ProcessSpec) : Cmd × Option HostError :=
  match os.Lookup spec.User with
  | .error err => (cmd, some err)
  | .ok runAs =>
    match ParseUint runAs.Uid 32 with
    | .error err => (cmd, some err)
    | .ok uid =>
      match ParseUint runAs.Gid 32 with
      | .error err => (cmd, some err)
      | .ok gid =>
        match chownR os cmd.Dir uid gid with
        | some err => (cmd, some err)
        | none =>
          let cmd := { cmd with SysProcAttr := some { Uid := uid % 2 ^ 32, Gid := gid % 2 ^ 32 } }
          let userRegex := compile "^USER=.*".toList
          let userNameRegex := compile "^USERNAME=.*".toList
          let homeRegex := compile "^HOME=.*".toList
          let env := cmd.Env.foldl
            (fun env envVar =>
              if !Match userRegex envVar && !Match userNameRegex envVar
                  && !Match homeRegex envVar then
                env ++ [envVar]
              else env)
            []
          let env := env ++ ["USER=" ++ runAs.Username]
          let env := env ++ ["USERNAME=" ++ runAs.Username]
          let env := env ++ ["HOME=" ++ runAs.HomeDir]
          ({ cmd with Env := env }, none)

/-! ## Streaming in and out of a container

The file that declares `StreamOut` and `StreamIn` is not among the sources; the definitions
of this section follow the spec. -/

/-- Modelled from the spec: what a path below a working directory holds, a directory or a
regular file with its contents, as bytes. -/
inductive Node where
  | dir
  | file (content : List Nat)
  deriving DecidableEq

/-- Modelled from the spec: the directory tree below a working directory, as the node at
each relative path; a path is the list of its names, so `foo/in-foo-a` is
`["foo", "in-foo-a"]`. -/
abbrev Tree : Type := AList (fun _ : List String => Node)

/-- Modelled from the spec: the header of an entry of an archive stream, with path, type and
size. -/
structure Header where
  path : List String
  isDir : Bool
  size : Nat
  deriving DecidableEq

/-- Modelled from the spec: an entry of an archive stream, a header followed by the payload
bytes. -/
structure ArchiveEntry where
  header : Header
  payload : List Nat
  deriving DecidableEq

/-- Modelled from the spec: the archive entry of a path of a tree. -/
def archiveEntry (path : List String) : Node → ArchiveEntry
  | .dir => { header := { path := path, isDir := true, size := 0 }, payload := [] }
  | .file content =>
    { header := { path := path, isDir := false, size := content.length }, payload := content }

/-- Modelled from the spec: `StreamOut` for the path `.`, which packages the tree below the
working directory into one archive stream, an entry for each path, in the order of the
traversal. -/
def StreamOut (tree : Tree) : List ArchiveEntry :=
  tree.entries.map fun e => archiveEntry e.1 e.2

/-- The directories above a path, below the working directory. -/
def parents (path : List String) : List (List String) :=
  path.inits.filter fun q => q ≠ [] ∧ q ≠ path

/-- Creates the directory `path` unless the path exists. -/
def mkdir (tree : Tree) (path : List String) : Tree :=
  if path ∈ tree then tree else tree.insert path .dir

/-- The node that an archive entry describes. -/
def ArchiveEntry.node (e : ArchiveEntry) : Node :=
  if e.header.isDir then .dir else .file (e.payload.take e.header.size)

/-- Modelled from the spec: the extraction of one archive entry, which creates the
intermediate directories as needed and then writes the entry; on a path that exists the
last write wins. -/
def extract (tree : Tree) (e : ArchiveEntry) : Tree :=
  ((parents e.header.path).foldl mkdir tree).insert e.header.path e.node

/-- Modelled from the spec: `StreamIn` for the path `.`, which extracts the entries of an
archive stream, in their order, below the working directory `dest`. -/
def StreamIn (dest : Tree) (stream : List ArchiveEntry) : Tree :=
  stream.foldl extract dest

/-! ## Notions used to state the properties -/

/-- The result of `Create` is the admission-denied error. -/
def AdmissionDenied (r : Except Error container) : Prop :=
  ∃ msg, r = .error (.WorkerNotCreatedError msg)

/-- The property map `props` has every key of `filter`, with the same value. -/
def Superset (props filter : Properties) : Prop :=
  ∀ k v, filter.lookup k = some v → props.lookup k = some v

/-- The handle under which `Create` registers the container: the caller's, or the generated
identifier when the caller gave none. -/
def registeredHandle (backend : Backend) (spec : ContainerSpec) : String :=
  if spec.Handle = "" then backend.generateContainerID.2 else spec.Handle

/-- The number of registered containers without the key `concourse:exit-status`. -/
def activeCount (backend : Backend) : Nat :=
  backend.containers.entries.countP
    (fun e => decide ("concourse:exit-status" ∉ e.2.properties))

/-- The states of a `Backend` that calls of `Create` and `Destroy` reach from a freshly
constructed one, while the property map of a registered container may gain keys (and change
values) in between. -/
inductive Reachable : Backend → Prop where
  /-- The backend that `NewBackend` returns. -/
  | fresh (containersDir : String) (now : Nat) :
      Reachable (Backend.NewBackend containersDir now)
  /-- A call of `Create`, whatever it returns. -/
  | create {backend : Backend} (host : Host) (spec : ContainerSpec) :
      Reachable backend → Reachable (backend.Create host spec).state
  /-- A call of `Destroy`, whatever it returns. -/
  | destroy {backend : Backend} (host : Host) (handle : String) :
      Reachable backend → Reachable (backend.Destroy host handle).state
  /-- The container registered under `handle` gets the property map `props`, which has
  every key that its property map had. -/
  | gain {backend : Backend} (handle : String) (c : container) (props : Properties) :
      Reachable backend → backend.containers.lookup handle = some c →
      (∀ k, k ∈ c.properties → k ∈ props) →
      Reachable { backend with
        containers := backend.containers.insert handle { c with properties := props } }

/-- The alphabet of the reference encoding: the digits `0` to `9`, then `a` to `v`. -/
def base32Alphabet : List Char := "0123456789abcdefghijklmnopqrstuv".toList

/-- The base-32 digit of `d` in `base32Alphabet`. -/
def base32Digit (d : Nat) : Char := base32Alphabet.getD d '0'

/-- The reference encoding of a counter value `c`, in the words of the spec: eleven
characters, of which the `k`-th is the base-32 digit of the 5-bit group
`(c >> (50 - 5k)) & 31`. -/
def referenceID (c : Nat) : String :=
  String.mk ((List.range 11).map fun k => base32Digit ((c >>> (50 - 5 * k)) &&& 31))

/-- The base-32 digits of `c`, lowest `w` of them, most significant first. -/
def digitsBE : Nat → Nat → List Nat
  | 0, _ => []
  | w + 1, c => c / 32 ^ w % 32 :: digitsBE w c

/-- The handle that the call number `n` (from 0) of `generateContainerID` returns, in a row
of calls on `backend`. -/
def generated : Backend → Nat → String
  | backend, 0 => backend.generateContainerID.2
  | backend, n + 1 => generated backend.generateContainerID.1 n

/-- The value of the counter after the call number `n` (from 0) of `generateContainerID`, in
a row of calls on `backend`; it is the value that the handle of that call encodes. -/
def counterAfter : Backend → Nat → Nat
  | backend, 0 => backend.generateContainerID.1.containerNum
  | backend, n + 1 => counterAfter backend.generateContainerID.1 n

/-- The lexicographic order on strings, character by character. The characters of a handle
are ASCII, for which the order of characters is the order of bytes. -/
def lexLt (s t : String) : Prop := List.Lex (· < ·) s.toList t.toList

/-- The string `s` begins with `p`. -/
abbrev BeginsWith (p s : String) : Prop := p.toList <+: s.toList

/-- The entry of an environment list sets one of `USER`, `USERNAME`, `HOME`. -/
abbrev IsIdentityVar (e : String) : Prop :=
  BeginsWith "USER=" e ∨ BeginsWith "USERNAME=" e ∨ BeginsWith "HOME=" e

/-- The paths of `tree` form a directory tree: what lies above a path of the tree, below the
working directory, is a directory of the tree. -/
def IsDirectoryTree (tree : Tree) : Prop :=
  ∀ p, p ∈ tree → ∀ q, q <+: p → q ≠ [] → q ≠ p → tree.lookup q = some .dir

/-- Every registered container answers `Handle()` with the key it is registered under. -/
def HandlesAreKeys (backend : Backend) : Prop :=
  ∀ e ∈ backend.containers.entries, e.2.Handle = e.1

/-- On `host`, stopping the container `c` and removing its working directory both succeed. -/
def Removable (host : Host) (c : container) : Prop :=
  host.Stop c false = none ∧ host.RemoveAll c.workDir = none

/-! ## Hosts and backends used as concrete inputs -/

/-- A host on which every call succeeds. -/
def hostOk : Host :=
  { MkdirAll := fun _ => none, RemoveAll := fun _ => none, Stop := fun _ _ => none }

/-- A host on which removing a directory fails and every other call succeeds. -/
def hostNoRemove : Host :=
  { MkdirAll := fun _ => none
    RemoveAll := fun _ => some ⟨"permission denied"⟩
    Stop := fun _ _ => none }

/-- A container whose process has exited: it carries the exit-status property. -/
def exited (handle workDir : String) : container :=
  { handle := handle, workDir := workDir
    properties := AList.singleton "concourse:exit-status" "0" }

/-- A container without properties. -/
def running (handle workDir : String) : container :=
  { handle := handle, workDir := workDir, properties := ∅ }

/-- A backend whose registry is empty. -/
def backend0 : Backend :=
  { containersDir := "/c", containers := ∅, containerNum := 0 }

/-- A backend that holds one active container under the handle `a`. -/
def backend1 : Backend :=
  { containersDir := "/c", containers := AList.singleton "a" (running "a" "/c/1"),
    containerNum := 1 }

/-- A backend that holds one exited container under the handle `a`. -/
def backendX : Backend :=
  { containersDir := "/c", containers := AList.singleton "a" (exited "a" "/c/1"),
    containerNum := 1 }

/-- A host on which stopping a container fails and every other call succeeds. -/
def hostNoStop : Host :=
  { MkdirAll := fun _ => none
    RemoveAll := fun _ => none
    Stop := fun _ _ => some ⟨"no such process"⟩ }

/-- A backend that holds the exited containers `a` and `b` and the active container `d`. -/
def backend3 : Backend :=
  { containersDir := "/c"
    containers := (AList.singleton "a" (exited "a" "/c/1")).insert "b" (exited "b" "/c/2")
      |>.insert "d" (running "d" "/c/3")
    containerNum := 3 }

/-- A host on which the directory `/c/2` cannot be removed and every other call succeeds. -/
def hostKeep2 : Host :=
  { MkdirAll := fun _ => none
    RemoveAll := fun dir => if dir = "/c/2" then some ⟨"device busy"⟩ else none
    Stop := fun _ _ => none }

/-- A backend whose counter is two steps from wrapping around. -/
def backendWrap : Backend :=
  { containersDir := "/c", containers := ∅, containerNum := 4294967294 }

/-- An operating system that knows the user `alice` and on which every call succeeds. -/
def osAlice : OS :=
  { Lookup := fun name =>
      if name = "alice" then .ok ⟨"1000", "1000", "alice", "/home/alice"⟩
      else .error ⟨"unknown user"⟩
    Walk := fun path => [(path, none)]
    Chown := fun _ _ _ => none }

/-- A command with an environment that already names a user and a home directory. -/
def cmdRoot : Cmd :=
  { Dir := "/c/1"
    Env := ["PATH=/bin", "USER=root", "HOME=/root", "USERNAME=root", "MYUSER=x"]
    SysProcAttr := none }

/-- The tree that the streaming test builds: the empty files `a` and `b`, and the directory
`foo` with the empty files `in-foo-a` and `in-foo-b`. -/
def treeA : Tree :=
  ((((AList.singleton ["a"] (Node.file [])).insert ["b"] (.file [])).insert ["foo"] .dir).insert
    ["foo", "in-foo-a"] (.file [])).insert ["foo", "in-foo-b"] (.file [])

/-! ## Lemmas on the registry -/

theorem lookup_of_mem_entries {V : Type} (m : GoMap V) (e : (_ : String) × V)
    (he : e ∈ m.entries) : m.lookup e.1 = some e.2 := by
  have h : e.2 ∈ m.lookup e.1 := AList.mem_lookup_iff.mpr (by simpa using he)
  simpa using h

theorem mem_entries_of_lookup {V : Type} (m : GoMap V) (k : String) (v : V)
    (h : m.lookup k = some v) : (⟨k, v⟩ : (_ : String) × V) ∈ m.entries :=
  AList.mem_lookup_iff.mp (by simp [h])

theorem countActive_foldl (l : List ((_ : String) × container)) (n : Nat) :
    l.foldl
      (fun activeContainers e =>
        match e.2.currentProperties.lookup "concourse:exit-status" with
        | none => activeContainers + 1
        | some _ => activeContainers)
      n
    = n + l.countP (fun e => decide ("concourse:exit-status" ∉ e.2.properties)) := by
  induction l generalizing n with
  | nil => simp
  | cons e l ih =>
    rw [List.foldl_cons, ih, List.countP_cons]
    cases h : e.2.currentProperties.lookup "concourse:exit-status" with
    | none =>
      have hn : "concourse:exit-status" ∉ e.2.properties :=
        AList.lookup_eq_none.mp (by simpa [container.currentProperties] using h)
      have hd : decide ("concourse:exit-status" ∉ e.2.properties) = true := by simp [hn]
      simp only [hd, if_true]
      exact Nat.add_right_comm n 1 _
    | some v =>
      have hm : "concourse:exit-status" ∈ e.2.properties :=
        AList.lookup_isSome.mp (by
          simp only [container.currentProperties] at h
          simp [h])
      have hd : decide ("concourse:exit-status" ∉ e.2.properties) = false := by simp [hm]
      simp [hd]

theorem countActive_eq (containers : GoMap container) :
    Backend.countActive containers
      = containers.entries.countP (fun e => decide ("concourse:exit-status" ∉ e.2.properties)) := by
  unfold Backend.countActive
  rw [countActive_foldl]
  simp

theorem containerHasProperties_iff (c : container) (filter : Properties) :
    Backend.containerHasProperties c filter = true ↔ Superset c.properties filter := by
  unfold Backend.containerHasProperties Superset
  simp only [List.all_eq_true, container.currentProperties]
  constructor
  · intro h k v hkv
    have := h ⟨k, v⟩ (mem_entries_of_lookup filter k v hkv)
    revert this
    cases c.properties.lookup k with
    | none => simp
    | some w => simp
  · intro h kv hkv
    have := h kv.1 kv.2 (lookup_of_mem_entries filter kv hkv)
    simp [this]

theorem filterContainers_foldl (l : List ((_ : String) × container)) (filter : Properties)
    (init : List container) :
    l.foldl
      (fun matchingContainers e =>
        if Backend.containerHasProperties e.2 filter then matchingContainers ++ [e.2]
        else matchingContainers)
      init
    = init ++ (l.filter (fun e => Backend.containerHasProperties e.2 filter)).map (·.2) := by
  induction l generalizing init with
  | nil => simp
  | cons e l ih =>
    rw [List.foldl_cons, ih, List.filter_cons]
    by_cases h : Backend.containerHasProperties e.2 filter = true
    · simp [h]
    · simp [h]

theorem Destroy_of_lookup_none (host : Host) (backend : Backend) (handle : String)
    (h : backend.containers.lookup handle = none) :
    backend.Destroy host handle = ⟨backend, [], none⟩ := by
  unfold Backend.Destroy
  rw [h]

theorem lookup_none_after_Destroy (host : Host) (backend : Backend) (handle : String)
    (h : (backend.Destroy host handle).result = none) :
    (backend.Destroy host handle).state.containers.lookup handle = none := by
  unfold Backend.Destroy at h ⊢
  cases hl : backend.containers.lookup handle with
  | none => simpa using hl
  | some c =>
    rw [hl] at h
    cases hs : host.Stop c false with
    | some err => simp [hs] at h
    | none =>
      cases hr : host.RemoveAll c.workDir with
      | some err => simp [hs, hr] at h
      | none => simp [hs, hr]

theorem Destroy_failed (host : Host) (backend : Backend) (handle : String) (err : Error)
    (h : (backend.Destroy host handle).result = some err) :
    (backend.Destroy host handle).state = backend ∧
    ∃ c, backend.containers.lookup handle = some c := by
  unfold Backend.Destroy at h ⊢
  cases hl : backend.containers.lookup handle with
  | none => simp [hl] at h
  | some c =>
    simp only [hl] at h ⊢
    cases hs : host.Stop c false with
    | some e => simp [hs]
    | none =>
      cases hr : host.RemoveAll c.workDir with
      | some e => simp [hs, hr]
      | none => simp [hs, hr] at h

theorem Create_ok (host : Host) (backend : Backend) (spec : ContainerSpec) (c : container)
    (h : (backend.Create host spec).result = .ok c) :
    c = { handle := registeredHandle backend spec
          workDir := Join [backend.containersDir, backend.generateContainerID.2]
          properties := spec.Properties } ∧
    (backend.Create host spec).state
      = { backend.generateContainerID.1 with
          containers := backend.containers.insert (registeredHandle backend spec) c } ∧
    (backend.Create host spec).effects
      = [.MkdirAll (Join [backend.containersDir, backend.generateContainerID.2])] := by
  unfold Backend.Create at h ⊢
  simp only [Backend.Capacity, ge_iff_le] at h ⊢
  by_cases hc : 1 ≤ Backend.countActive backend.containers
  · simp [hc] at h
  · simp only [hc, if_false] at h ⊢
    have hdir : (backend.generateContainerID).1.containersDir = backend.containersDir := rfl
    rw [hdir] at h ⊢
    cases hm : host.MkdirAll
        (Join [backend.containersDir, (backend.generateContainerID).2]) with
    | some err => simp [hm] at h
    | none =>
      simp only [hm, Except.ok.injEq] at h ⊢
      subst h
      have hcs : (backend.generateContainerID).1.containers = backend.containers := rfl
      by_cases hh : spec.Handle = ""
      · simp [hh, registeredHandle, newContainer, hcs]
      · simp [hh, registeredHandle, newContainer, hcs]

/-! ## Admission control -/

/-- C1: `Create` fails with the admission-denied error exactly when the number of registered
containers without the key `concourse:exit-status` is at least `Capacity().MaxContainers`,
which is 1; if every registered container carries the key, `Create` is not denied; and a
denied `Create` leaves the backend as it was and makes no call to the host. -/
theorem Create_denied_iff (host : Host) (backend : Backend) (spec : ContainerSpec) :
    (backend.Capacity.1.MaxContainers = 1 ∧ backend.Capacity.2 = none) ∧
    (AdmissionDenied (backend.Create host spec).result ↔
      backend.Capacity.1.MaxContainers ≤ backend.containers.entries.countP
        (fun e => decide ("concourse:exit-status" ∉ e.2.properties))) ∧
    ((∀ h c, backend.containers.lookup h = some c → "concourse:exit-status" ∈ c.properties) →
      ¬ AdmissionDenied (backend.Create host spec).result) ∧
    (AdmissionDenied (backend.Create host spec).result →
      (backend.Create host spec).state = backend ∧ (backend.Create host spec).effects = []) := by
  have key : AdmissionDenied (backend.Create host spec).result ↔
      1 ≤ backend.containers.entries.countP
        (fun e => decide ("concourse:exit-status" ∉ e.2.properties)) := by
    rw [← countActive_eq]
    unfold Backend.Create AdmissionDenied
    simp only [Backend.Capacity, ge_iff_le]
    by_cases hc : 1 ≤ Backend.countActive backend.containers
    · simp [hc]
    · simp only [hc, if_false, iff_false]
      cases hm : host.MkdirAll
          (Join [(backend.generateContainerID).1.containersDir,
            (backend.generateContainerID).2]) with
      | none => simp [hm]
      | some err => simp [hm]
  refine ⟨⟨rfl, rfl⟩, key, ?_, ?_⟩
  · intro hall hden
    have hpos := key.mp hden
    obtain ⟨e, he, hact⟩ := List.countP_pos_iff.mp hpos
    have := hall e.1 e.2 (lookup_of_mem_entries _ e he)
    simp [this] at hact
  · intro hden
    have hpos := key.mp hden
    rw [← countActive_eq] at hpos
    unfold Backend.Create
    simp [Backend.Capacity, hpos]

/-! ## Enumeration and lookup -/

/-- C2: `Containers(filter)` returns no error and changes nothing; a container is in the
result exactly when it is registered and its properties have every key of `filter` with the
same value; the result lists the containers of the matching handles, one per handle; and
with the empty filter the result is every registered container. -/
theorem Containers_superset (backend : Backend) (filter : Properties) :
    (backend.Containers filter).result.2 = none ∧
    (backend.Containers filter).state = backend ∧
    (backend.Containers filter).effects = [] ∧
    (∀ c, c ∈ (backend.Containers filter).result.1 ↔
      ∃ h, backend.containers.lookup h = some c ∧ Superset c.properties filter) ∧
    (∃ hs : List String, hs.Nodup ∧
      (∀ h, h ∈ hs ↔
        ∃ c, backend.containers.lookup h = some c ∧ Superset c.properties filter) ∧
      (backend.Containers filter).result.1.map some
        = hs.map (fun h => backend.containers.lookup h)) ∧
    (backend.Containers ∅).result.1 = backend.containers.entries.map (·.2) := by
  have hres : ∀ f : Properties, (backend.Containers f).result.1
      = (backend.containers.entries.filter
          (fun e => Backend.containerHasProperties e.2 f)).map (·.2) := by
    intro f
    simp [Backend.Containers, Backend.filterContainers, filterContainers_foldl]
  refine ⟨rfl, rfl, rfl, ?_, ?_, ?_⟩
  · intro c
    rw [hres]
    simp only [List.mem_map, List.mem_filter]
    constructor
    · rintro ⟨e, ⟨he, hp⟩, rfl⟩
      exact ⟨e.1, lookup_of_mem_entries _ e he, (containerHasProperties_iff _ _).mp hp⟩
    · rintro ⟨h, hl, hs⟩
      exact ⟨⟨h, c⟩, ⟨mem_entries_of_lookup _ h c hl, (containerHasProperties_iff _ _).mpr hs⟩,
        rfl⟩
  · refine ⟨(backend.containers.entries.filter
        (fun e => Backend.containerHasProperties e.2 filter)).map (·.1), ?_, ?_, ?_⟩
    · have hk : (backend.containers.entries.map (·.1)).Nodup := backend.containers.keys_nodup
      exact hk.sublist ((List.filter_sublist _).map _)
    · intro h
      simp only [List.mem_map, List.mem_filter]
      constructor
      · rintro ⟨e, ⟨he, hp⟩, rfl⟩
        exact ⟨e.2, lookup_of_mem_entries _ e he, (containerHasProperties_iff _ _).mp hp⟩
      · rintro ⟨c, hl, hs⟩
        exact ⟨⟨h, c⟩,
          ⟨mem_entries_of_lookup _ h c hl, (containerHasProperties_iff _ _).mpr hs⟩, rfl⟩
    · rw [hres, List.map_map, List.map_map]
      apply List.map_congr_left
      intro e he
      exact (lookup_of_mem_entries _ e (List.mem_filter.mp he).1).symm
  · rw [hres]
    congr 1
    apply List.filter_eq_self.mpr
    intro e _
    simp [Backend.containerHasProperties]

/-- C3: `Lookup(handle)` fails exactly when `handle` is not a key of the registry, and then
with `ErrContainerNotFound`; when the handle is a key it returns the container stored under
it; and it changes nothing. -/
theorem Lookup_iff (backend : Backend) (handle : String) :
    ((∃ err, (backend.Lookup handle).result = .error err) ↔ handle ∉ backend.containers) ∧
    ((backend.Lookup handle).result = .error .ErrContainerNotFound ↔
      handle ∉ backend.containers) ∧
    (∀ c, (backend.Lookup handle).result = .ok c ↔
      backend.containers.lookup handle = some c) ∧
    (backend.Lookup handle).state = backend ∧
    (backend.Lookup handle).effects = [] := by
  unfold Backend.Lookup
  cases h : backend.containers.lookup handle with
  | none =>
    have hn : handle ∉ backend.containers := AList.lookup_eq_none.mp h
    simp [hn]
  | some c =>
    have hm : handle ∈ backend.containers := AList.lookup_isSome.mp (by simp [h])
    simp [hm]

/-! ## Destroy -/

/-- C4: `Destroy` of a handle that is not registered returns no error, makes no call to the
host (it stops no container and removes no directory) and leaves the backend as it was. -/
theorem Destroy_unknown (host : Host) (backend : Backend) (handle : String)
    (h : handle ∉ backend.containers) :
    (backend.Destroy host handle).result = none ∧
    (backend.Destroy host handle).effects = [] ∧
    (backend.Destroy host handle).state = backend := by
  rw [Destroy_of_lookup_none host backend handle (AList.lookup_eq_none.mpr h)]
  exact ⟨rfl, rfl, rfl⟩

/-- C4 at a backend that holds the container `a`, for the handle `b`. -/
theorem Destroy_unknown_witness :
    "b" ∉ backend1.containers ∧
    (backend1.Destroy hostNoRemove "b").result = none ∧
    (backend1.Destroy hostNoRemove "b").effects = [] ∧
    (backend1.Destroy hostNoRemove "b").state = backend1 :=
  ⟨by decide, Destroy_unknown hostNoRemove backend1 "b" (by decide)⟩

/-- C5, as stated, fails: on a host where removing the directory fails, the first `Destroy`
of the registered handle `a` returns the error and keeps the entry, and the second `Destroy`
returns the error again. -/
theorem Destroy_twice_counterexample :
    (backend1.Destroy hostNoRemove "a").result = some (.host ⟨"permission denied"⟩) ∧
    ((backend1.Destroy hostNoRemove "a").state.Destroy hostNoRemove "a").result
      = some (.host ⟨"permission denied"⟩) := by
  constructor <;> rfl

/-- C5, amended: when a `Destroy` of a handle has returned no error, the next `Destroy` of
the same handle returns no error, whatever the host answers; it makes no call to the host
and changes nothing. When the first `Destroy` has returned an error, the backend is as it
was before, the container is still registered under the handle, and a second `Destroy` to
which the host gives the same answers returns the same error. -/
theorem Destroy_twice (host₁ host₂ : Host) (backend : Backend) (handle : String) :
    ((backend.Destroy host₁ handle).result = none →
      ((backend.Destroy host₁ handle).state.Destroy host₂ handle).result = none ∧
      ((backend.Destroy host₁ handle).state.Destroy host₂ handle).effects = [] ∧
      ((backend.Destroy host₁ handle).state.Destroy host₂ handle).state
        = (backend.Destroy host₁ handle).state) ∧
    (∀ err, (backend.Destroy host₁ handle).result = some err →
      (backend.Destroy host₁ handle).state = backend ∧
      (∃ c, backend.containers.lookup handle = some c ∧
        (backend.Destroy host₁ handle).state.containers.lookup handle = some c) ∧
      ((backend.Destroy host₁ handle).state.Destroy host₁ handle).result = some err) := by
  constructor
  · intro h
    rw [Destroy_of_lookup_none host₂ _ handle
      (lookup_none_after_Destroy host₁ backend handle h)]
    exact ⟨rfl, rfl, rfl⟩
  · intro err h
    obtain ⟨hstate, c, hc⟩ := Destroy_failed host₁ backend handle err h
    refine ⟨hstate, ⟨c, hc, ?_⟩, ?_⟩
    · rw [hstate]
      exact hc
    · rw [hstate]
      exact h

/-- C5, amended, at a backend that holds the container `a`: on a host where every call
succeeds both calls return no error, and on a host where removing the directory fails the
container stays registered and the second call fails like the first. -/
theorem Destroy_twice_witness :
    ((backend1.Destroy hostOk "a").result = none ∧
      ((backend1.Destroy hostOk "a").state.Destroy hostNoRemove "a").result = none ∧
      ((backend1.Destroy hostOk "a").state.Destroy hostNoRemove "a").effects = [] ∧
      ((backend1.Destroy hostOk "a").state.Destroy hostNoRemove "a").state
        = (backend1.Destroy hostOk "a").state) ∧
    ((backend1.Destroy hostNoRemove "a").result = some (.host ⟨"permission denied"⟩) ∧
      (backend1.Destroy hostNoRemove "a").state = backend1 ∧
      (∃ c, backend1.containers.lookup "a" = some c ∧
        (backend1.Destroy hostNoRemove "a").state.containers.lookup "a" = some c) ∧
      ((backend1.Destroy hostNoRemove "a").state.Destroy hostNoRemove "a").result
        = some (.host ⟨"permission denied"⟩)) :=
  ⟨⟨rfl, (Destroy_twice hostOk hostNoRemove backend1 "a").1 rfl⟩,
   ⟨rfl, (Destroy_twice hostNoRemove hostNoRemove backend1 "a").2 _ rfl⟩⟩

/-- C6, as stated, fails: on a host where removing the directory fails, `Destroy` of the
registered handle `a` returns the error, and `Lookup` of `a` afterwards still returns the
container. -/
theorem Lookup_after_Destroy_counterexample :
    (backend1.Destroy hostNoRemove "a").result = some (.host ⟨"permission denied"⟩) ∧
    ((backend1.Destroy hostNoRemove "a").state.Lookup "a").result
      = .ok (running "a" "/c/1") := by
  constructor <;> rfl

/-- C6, amended: after a `Destroy` of a handle that returned no error, `Lookup` of that
handle returns `ErrContainerNotFound`. After a `Destroy` that returned an error, the
container is still registered under the handle and `Lookup` returns it. -/
theorem Lookup_after_Destroy (host : Host) (backend : Backend) (handle : String) :
    ((backend.Destroy host handle).result = none →
      ((backend.Destroy host handle).state.Lookup handle).result
        = .error .ErrContainerNotFound) ∧
    (∀ err, (backend.Destroy host handle).result = some err →
      ∃ c, backend.containers.lookup handle = some c ∧
        ((backend.Destroy host handle).state.Lookup handle).result = .ok c) := by
  constructor
  · intro h
    unfold Backend.Lookup
    rw [lookup_none_after_Destroy host backend handle h]
  · intro err h
    obtain ⟨hstate, c, hc⟩ := Destroy_failed host backend handle err h
    refine ⟨c, hc, ?_⟩
    rw [hstate]
    unfold Backend.Lookup
    rw [hc]

/-- C6, amended, at a backend that holds the container `a`: after a `Destroy` that
succeeded `Lookup` fails, and after a `Destroy` that failed `Lookup` returns the
container. -/
theorem Lookup_after_Destroy_witness :
    ((backend1.Destroy hostOk "a").result = none ∧
      ((backend1.Destroy hostOk "a").state.Lookup "a").result
        = .error .ErrContainerNotFound) ∧
    ((backend1.Destroy hostNoRemove "a").result = some (.host ⟨"permission denied"⟩) ∧
      ∃ c, backend1.containers.lookup "a" = some c ∧
        ((backend1.Destroy hostNoRemove "a").state.Lookup "a").result = .ok c) :=
  ⟨⟨rfl, (Lookup_after_Destroy hostOk backend1 "a").1 rfl⟩,
   ⟨rfl, (Lookup_after_Destroy hostNoRemove backend1 "a").2 _ rfl⟩⟩

/-- C7, as stated, fails: `Destroy` of the registered handle `a` calls the container's `Stop`
with `kill = false` and then removes the directory; it makes no call of `Stop` with
`kill = true`. -/
theorem Destroy_stop_counterexample :
    (backend1.Destroy hostOk "a").effects
      = [.Stop (running "a" "/c/1") false, .RemoveAll "/c/1"] ∧
    Effect.Stop (running "a" "/c/1") true ∉ (backend1.Destroy hostOk "a").effects := by
  have h : (backend1.Destroy hostOk "a").effects
      = [.Stop (running "a" "/c/1") false, .RemoveAll "/c/1"] := rfl
  refine ⟨h, ?_⟩
  rw [h]
  simp

/-- C7, amended: `Destroy` of a registered handle first calls the `Stop` of the container
stored under it with `kill = false`, and calls no `Stop` with `kill = true`. -/
theorem Destroy_stop (host : Host) (backend : Backend) (handle : String) (c : container)
    (h : backend.containers.lookup handle = some c) :
    (backend.Destroy host handle).effects.head? = some (.Stop c false) ∧
    ∀ c', Effect.Stop c' true ∉ (backend.Destroy host handle).effects := by
  unfold Backend.Destroy
  rw [h]
  cases hs : host.Stop c false with
  | some err => simp [hs]
  | none =>
    cases hr : host.RemoveAll c.workDir with
    | some err => simp [hs, hr]
    | none => simp [hs, hr]

/-- C7, amended, at a backend that holds the container `a`. -/
theorem Destroy_stop_witness :
    backend1.containers.lookup "a" = some (running "a" "/c/1") ∧
    (backend1.Destroy hostOk "a").effects.head? = some (.Stop (running "a" "/c/1") false) ∧
    ∀ c', Effect.Stop c' true ∉ (backend1.Destroy hostOk "a").effects :=
  ⟨rfl, Destroy_stop hostOk backend1 "a" (running "a" "/c/1") rfl⟩

/-! ## Create -/

/-- C8, as stated, fails: for the caller-supplied handle `h`, `Create` registers the
container under `h` but creates, and gives to the container, the directory named by the
generated identifier, which is not `containersDir` joined with `h`. -/
theorem Create_dir_counterexample :
    (backend0.Create hostOk ⟨"h", ∅⟩).result = .ok (running "h" "/c/00000000001") ∧
    (backend0.Create hostOk ⟨"h", ∅⟩).state.containers.lookup "h"
      = some (running "h" "/c/00000000001") ∧
    (backend0.Create hostOk ⟨"h", ∅⟩).effects = [.MkdirAll "/c/00000000001"] ∧
    "/c/00000000001" ≠ Join [backend0.containersDir, "h"] :=
  ⟨rfl, rfl, rfl, by decide⟩

/-- C8, amended: for every successful `Create`, the one directory created on disk, which is
also the working directory of the container, is `containersDir` joined with the generated
identifier; when the caller supplied no handle, the generated identifier is the handle under
which the container is registered. -/
theorem Create_dir (host : Host) (backend : Backend) (spec : ContainerSpec) (c : container)
    (h : (backend.Create host spec).result = .ok c) :
    (backend.Create host spec).effects
      = [.MkdirAll (Join [backend.containersDir, backend.generateContainerID.2])] ∧
    c.workDir = Join [backend.containersDir, backend.generateContainerID.2] ∧
    (backend.Create host spec).state.containers.lookup (registeredHandle backend spec)
      = some c ∧
    (spec.Handle = "" → registeredHandle backend spec = backend.generateContainerID.2) := by
  obtain ⟨hc, hs, he⟩ := Create_ok host backend spec c h
  refine ⟨he, ?_, ?_, ?_⟩
  · rw [hc]
  · rw [hs]
    exact AList.lookup_insert _
  · intro hh
    simp [registeredHandle, hh]

/-- C8, amended, at an empty backend and a spec without a handle. -/
theorem Create_dir_witness :
    (backend0.Create hostOk ⟨"", ∅⟩).result = .ok (running "00000000001" "/c/00000000001") ∧
    (backend0.Create hostOk ⟨"", ∅⟩).effects = [.MkdirAll "/c/00000000001"] ∧
    (backend0.Create hostOk ⟨"", ∅⟩).state.containers.lookup "00000000001"
      = some (running "00000000001" "/c/00000000001") ∧
    registeredHandle backend0 ⟨"", ∅⟩ = backend0.generateContainerID.2 :=
  have t := Create_dir hostOk backend0 ⟨"", ∅⟩ (running "00000000001" "/c/00000000001") rfl
  ⟨rfl, t.1.trans rfl, t.2.2.1, t.2.2.2 rfl⟩

/-- C9: when `Create(spec)` succeeds, the returned container is registered under
`spec.Handle` if that is not empty and under the generated identifier otherwise; its
`Handle()` is that handle; and a `Lookup` of that handle right afterwards returns the
container that `Create` returned. -/
theorem Create_then_Lookup (host : Host) (backend : Backend) (spec : ContainerSpec)
    (c : container) (h : (backend.Create host spec).result = .ok c) :
    c.Handle = (if spec.Handle = "" then backend.generateContainerID.2 else spec.Handle) ∧
    (backend.Create host spec).state.containers.lookup c.Handle = some c ∧
    ((backend.Create host spec).state.Lookup c.Handle).result = .ok c := by
  obtain ⟨hc, hs, -⟩ := Create_ok host backend spec c h
  have hh : c.Handle = registeredHandle backend spec := by
    rw [hc]
    rfl
  have hl : (backend.Create host spec).state.containers.lookup c.Handle = some c := by
    rw [hs, hh]
    exact AList.lookup_insert _
  refine ⟨hh, hl, ?_⟩
  unfold Backend.Lookup
  rw [hl]

/-- C9 at an empty backend, once with a handle of the caller and once without. -/
theorem Create_then_Lookup_witness :
    ((backend0.Create hostOk ⟨"h", ∅⟩).result = .ok (running "h" "/c/00000000001") ∧
      ((backend0.Create hostOk ⟨"h", ∅⟩).state.Lookup "h").result
        = .ok (running "h" "/c/00000000001")) ∧
    ((backend0.Create hostOk ⟨"", ∅⟩).result
        = .ok (running "00000000001" "/c/00000000001") ∧
      ((backend0.Create hostOk ⟨"", ∅⟩).state.Lookup "00000000001").result
        = .ok (running "00000000001" "/c/00000000001")) :=
  ⟨⟨rfl, (Create_then_Lookup hostOk backend0 ⟨"h", ∅⟩ (running "h" "/c/00000000001") rfl).2.2⟩,
   ⟨rfl, (Create_then_Lookup hostOk backend0 ⟨"", ∅⟩
      (running "00000000001" "/c/00000000001") rfl).2.2⟩⟩

/-- C10, as stated, fails: the registry holds an exited container under the handle `a`; a
`Create` with the caller-supplied handle `a` succeeds and puts the new container in its
place, so the container registered before is no longer in the registry. -/
theorem Create_replaces_counterexample :
    backendX.containers.lookup "a" = some (exited "a" "/c/1") ∧
    (backendX.Create hostOk ⟨"a", ∅⟩).result = .ok (running "a" "/c/00000000002") ∧
    (backendX.Create hostOk ⟨"a", ∅⟩).state.containers.lookup "a"
      = some (running "a" "/c/00000000002") ∧
    (backendX.Create hostOk ⟨"a", ∅⟩).state.containers.entries.map (·.2.workDir)
      = ["/c/00000000002"] :=
  ⟨rfl, rfl, rfl, rfl⟩

/-- C10, amended: a successful `Create` leaves every container that was registered under a
handle other than the handle of the new container registered under its handle, and adds no
other handle; the handle of the new container holds the new container afterwards, also when
a container was registered under it before. -/
theorem Create_keeps_others (host : Host) (backend : Backend) (spec : ContainerSpec)
    (c : container) (h : (backend.Create host spec).result = .ok c) :
    (∀ handle, handle ≠ c.Handle →
      (backend.Create host spec).state.containers.lookup handle
        = backend.containers.lookup handle) ∧
    (backend.Create host spec).state.containers.lookup c.Handle = some c := by
  obtain ⟨hc, hs, -⟩ := Create_ok host backend spec c h
  have hh : c.Handle = registeredHandle backend spec := by
    rw [hc]
    rfl
  constructor
  · intro handle hne
    rw [hs]
    exact AList.lookup_insert_ne (by rw [← hh]; exact hne)
  · rw [hs, hh]
    exact AList.lookup_insert _

/-- C10, amended, at a backend that holds an exited container under `a`, for the handle
`b`: the container under `a` stays. -/
theorem Create_keeps_others_witness :
    (backendX.Create hostOk ⟨"b", ∅⟩).result = .ok (running "b" "/c/00000000002") ∧
    (backendX.Create hostOk ⟨"b", ∅⟩).state.containers.lookup "a"
      = some (exited "a" "/c/1") ∧
    (backendX.Create hostOk ⟨"b", ∅⟩).state.containers.lookup "b"
      = some (running "b" "/c/00000000002") :=
  ⟨rfl,
   ((Create_keeps_others hostOk backendX ⟨"b", ∅⟩ (running "b" "/c/00000000002") rfl).1 "a"
      (by decide)).trans rfl,
   (Create_keeps_others hostOk backendX ⟨"b", ∅⟩ (running "b" "/c/00000000002") rfl).2⟩

/-! ## Capacity -/

theorem Create_denied_of_active (host : Host) (backend : Backend) (spec : ContainerSpec)
    (h : 1 ≤ Backend.countActive backend.containers) :
    backend.Create host spec = ⟨backend, [], .error (.WorkerNotCreatedError
      "worker already has the maximum number of active containers")⟩ := by
  unfold Backend.Create
  simp [Backend.Capacity, h]

theorem Create_of_room (host : Host) (backend : Backend) (spec : ContainerSpec)
    (h : Backend.countActive backend.containers = 0)
    (hm : host.MkdirAll (Join [backend.containersDir, backend.generateContainerID.2]) = none) :
    (backend.Create host spec).result
      = .ok { handle := registeredHandle backend spec
              workDir := Join [backend.containersDir, backend.generateContainerID.2]
              properties := spec.Properties } := by
  unfold Backend.Create
  simp only [Backend.Capacity, ge_iff_le, h]
  have hdir : (backend.generateContainerID).1.containersDir = backend.containersDir := rfl
  rw [hdir, hm]
  by_cases hh : spec.Handle = ""
  · simp [hh, registeredHandle, newContainer]
  · simp [hh, registeredHandle, newContainer]

theorem Create_not_denied_of_room (host : Host) (backend : Backend) (spec : ContainerSpec)
    (h : Backend.countActive backend.containers = 0) :
    ¬ AdmissionDenied (backend.Create host spec).result := by
  unfold Backend.Create AdmissionDenied
  simp only [Backend.Capacity, ge_iff_le, h]
  cases hm : host.MkdirAll
      (Join [(backend.generateContainerID).1.containersDir,
        (backend.generateContainerID).2]) with
  | none => simp [hm]
  | some err => simp [hm]

theorem Create_containers (host : Host) (backend : Backend) (spec : ContainerSpec) :
    (backend.Create host spec).state.containers = backend.containers ∨
    (Backend.countActive backend.containers = 0 ∧
      ∃ h c, (backend.Create host spec).state.containers = backend.containers.insert h c) := by
  unfold Backend.Create
  simp only [Backend.Capacity, ge_iff_le]
  by_cases hc : 1 ≤ Backend.countActive backend.containers
  · simp [hc]
  · simp only [hc, if_false]
    cases hm : host.MkdirAll
        (Join [(backend.generateContainerID).1.containersDir,
          (backend.generateContainerID).2]) with
    | some err =>
      left
      rfl
    | none =>
      right
      exact ⟨by omega, _, _, rfl⟩

theorem Destroy_containers (host : Host) (backend : Backend) (handle : String) :
    (backend.Destroy host handle).state.containers = backend.containers ∨
    (backend.Destroy host handle).state.containers = backend.containers.erase handle := by
  unfold Backend.Destroy
  cases backend.containers.lookup handle with
  | none => simp
  | some c =>
    cases hs : host.Stop c false with
    | some err => simp [hs]
    | none =>
      cases hr : host.RemoveAll c.workDir with
      | some err => simp [hs, hr]
      | none => simp [hs, hr]

theorem countP_entries_of_lookup {V : Type} (p : (_ : String) × V → Bool) (m : GoMap V)
    (k : String) (v : V) (h : m.lookup k = some v) :
    m.entries.countP p = (if p ⟨k, v⟩ then 1 else 0) + (List.kerase k m.entries).countP p := by
  have hk : k ∈ m.entries.keys := AList.mem_keys.mp (AList.lookup_isSome.mp (by simp [h]))
  obtain ⟨b, l₁, l₂, -, hl, he⟩ := List.exists_of_kerase hk
  have hb : m.lookup k = some b :=
    lookup_of_mem_entries m ⟨k, b⟩ (by rw [hl]; simp)
  have hbv : b = v := by
    rw [h] at hb
    exact (Option.some.inj hb).symm
  subst hbv
  rw [he, hl, List.countP_append, List.countP_append, List.countP_cons]
  omega

theorem activeCount_of_containers_eq {b b' : Backend} (h : b'.containers = b.containers) :
    activeCount b' = activeCount b := by
  unfold activeCount
  rw [h]

theorem activeCount_erase_le (b b' : Backend) (handle : String)
    (h : b'.containers = b.containers.erase handle) : activeCount b' ≤ activeCount b := by
  unfold activeCount
  rw [h]
  exact (List.kerase_sublist handle b.containers.entries).countP_le _

theorem activeCount_insert_le (b b' : Backend) (handle : String) (c : container)
    (h : b'.containers = b.containers.insert handle c) :
    activeCount b' ≤ 1 + activeCount b := by
  unfold activeCount
  rw [h, AList.insert_entries, List.countP_cons]
  have := (List.kerase_sublist handle b.containers.entries).countP_le
    (fun e => decide ("concourse:exit-status" ∉ e.2.properties))
  split <;> omega

/-- C11: in every state that `Create` and `Destroy` calls reach from a freshly constructed
`Backend`, with property maps only gaining keys in between, the number of registered
containers without the key `concourse:exit-status` is at most `Capacity().MaxContainers`,
which is 1. -/
theorem Reachable_activeCount_le (backend : Backend) (h : Reachable backend) :
    activeCount backend ≤ backend.Capacity.1.MaxContainers ∧
    backend.Capacity.1.MaxContainers = 1 := by
  refine ⟨?_, rfl⟩
  show activeCount backend ≤ 1
  induction h with
  | fresh containersDir now => simp [activeCount, Backend.NewBackend]
  | @create b host spec _ ih =>
    rcases Create_containers host b spec with hsame | ⟨hzero, handle, c, hins⟩
    · rw [activeCount_of_containers_eq hsame]
      exact ih
    · have h0 : activeCount b = 0 := by
        unfold activeCount
        rw [← countActive_eq]
        exact hzero
      have := activeCount_insert_le b _ handle c hins
      omega
  | @destroy b host handle _ ih =>
    rcases Destroy_containers host b handle with hsame | herase
    · rw [activeCount_of_containers_eq hsame]
      exact ih
    · exact le_trans (activeCount_erase_le b _ handle herase) ih
  | @gain b handle c props _ hl hkeys ih =>
    have hold := countP_entries_of_lookup
      (fun e => decide ("concourse:exit-status" ∉ e.2.properties)) b.containers handle c hl
    unfold activeCount at ih ⊢
    simp only [AList.insert_entries, List.countP_cons]
    rw [hold] at ih
    by_cases hc : "concourse:exit-status" ∈ c.properties
    · have hp := hkeys _ hc
      simp only [hp, not_true_eq_false, decide_False] at ih ⊢
      simp only [hc, not_true_eq_false, decide_False] at ih
      simpa using ih
    · simp only [hc, not_false_eq_true, decide_True, if_true] at ih
      split <;> omega

/-- C11 at the state after one `Create` on a fresh backend. -/
theorem Reachable_activeCount_le_witness :
    Reachable ((Backend.NewBackend "/c" 0).Create hostOk ⟨"", ∅⟩).state ∧
    activeCount ((Backend.NewBackend "/c" 0).Create hostOk ⟨"", ∅⟩).state
      ≤ ((Backend.NewBackend "/c" 0).Create hostOk ⟨"", ∅⟩).state.Capacity.1.MaxContainers ∧
    ((Backend.NewBackend "/c" 0).Create hostOk ⟨"", ∅⟩).state.Capacity.1.MaxContainers = 1 :=
  ⟨Reachable.create hostOk ⟨"", ∅⟩ (Reachable.fresh "/c" 0),
   Reachable_activeCount_le _ (Reachable.create hostOk ⟨"", ∅⟩ (Reachable.fresh "/c" 0))⟩

theorem countActive_insert_pos (containers : GoMap container) (handle : String)
    (c : container) (h : "concourse:exit-status" ∉ c.properties) :
    1 ≤ Backend.countActive (containers.insert handle c) := by
  rw [countActive_eq, AList.insert_entries, List.countP_cons]
  simp [h]

theorem countActive_eq_zero (containers : GoMap container)
    (h : ∀ k c, containers.lookup k = some c → "concourse:exit-status" ∈ c.properties) :
    Backend.countActive containers = 0 := by
  rw [countActive_eq, List.countP_eq_zero]
  intro e he
  simp [h e.1 e.2 (lookup_of_mem_entries containers e he)]

/-- C12: on a freshly constructed `Backend`, a `Create` whose spec has no exit-status
property succeeds when the directory can be created (this is the first
`Capacity().MaxContainers = 1` calls), and the `Create` after it is denied admission,
whatever its spec and whatever the host answers. -/
theorem Create_fresh_then_denied (containersDir : String) (now : Nat) (host₁ host₂ : Host)
    (spec₁ spec₂ : ContainerSpec)
    (hp : "concourse:exit-status" ∉ spec₁.Properties)
    (hm : host₁.MkdirAll
      (Join [containersDir, (Backend.NewBackend containersDir now).generateContainerID.2])
      = none) :
    (Backend.NewBackend containersDir now).Capacity.1.MaxContainers = 1 ∧
    (∃ c, ((Backend.NewBackend containersDir now).Create host₁ spec₁).result = .ok c) ∧
    AdmissionDenied
      (((Backend.NewBackend containersDir now).Create host₁ spec₁).state.Create
        host₂ spec₂).result := by
  have hzero : Backend.countActive (Backend.NewBackend containersDir now).containers = 0 := by
    simp [Backend.countActive, Backend.NewBackend]
  have hok := Create_of_room host₁ (Backend.NewBackend containersDir now) spec₁ hzero hm
  obtain ⟨-, hstate, -⟩ := Create_ok host₁ _ spec₁ _ hok
  refine ⟨rfl, ⟨_, hok⟩, ?_⟩
  have hact : 1 ≤ Backend.countActive
      ((Backend.NewBackend containersDir now).Create host₁ spec₁).state.containers := by
    rw [hstate]
    exact countActive_insert_pos _ _ _ hp
  rw [Create_denied_of_active host₂ _ spec₂ hact]
  exact ⟨_, rfl⟩

/-- C12 at the backend constructed for `/c` at clock value 41. -/
theorem Create_fresh_then_denied_witness :
    (Backend.NewBackend "/c" 41).Capacity.1.MaxContainers = 1 ∧
    (∃ c, ((Backend.NewBackend "/c" 41).Create hostOk ⟨"", ∅⟩).result = .ok c) ∧
    AdmissionDenied
      (((Backend.NewBackend "/c" 41).Create hostOk ⟨"", ∅⟩).state.Create
        hostOk ⟨"other", ∅⟩).result :=
  Create_fresh_then_denied "/c" 41 hostOk hostOk ⟨"", ∅⟩ ⟨"other", ∅⟩ (by decide) rfl

/-- C16: when `Destroy(handle)` has returned no error and every container that is still
registered carries the exit-status property, the `Create` that follows is not denied
admission, and it returns a container whenever the directory can be created. -/
theorem Create_after_Destroy (host₁ host₂ : Host) (backend : Backend) (handle : String)
    (spec : ContainerSpec)
    (hd : (backend.Destroy host₁ handle).result = none)
    (hx : ∀ h c, (backend.Destroy host₁ handle).state.containers.lookup h = some c →
      "concourse:exit-status" ∈ c.properties) :
    (backend.Destroy host₁ handle).state.containers.lookup handle = none ∧
    ¬ AdmissionDenied ((backend.Destroy host₁ handle).state.Create host₂ spec).result ∧
    (host₂.MkdirAll (Join [(backend.Destroy host₁ handle).state.containersDir,
        (backend.Destroy host₁ handle).state.generateContainerID.2]) = none →
      ∃ c, ((backend.Destroy host₁ handle).state.Create host₂ spec).result = .ok c) := by
  have hzero := countActive_eq_zero _ hx
  refine ⟨lookup_none_after_Destroy host₁ backend handle hd,
    Create_not_denied_of_room host₂ _ spec hzero, ?_⟩
  intro hm
  exact ⟨_, Create_of_room host₂ _ spec hzero hm⟩

/-- C16 on a backend of capacity 1: create, destroy, create again. -/
theorem Create_after_Destroy_witness :
    (backend0.Create hostOk ⟨"", ∅⟩).result = .ok (running "00000000001" "/c/00000000001") ∧
    ((backend0.Create hostOk ⟨"", ∅⟩).state.Destroy hostOk "00000000001").result = none ∧
    (((backend0.Create hostOk ⟨"", ∅⟩).state.Destroy hostOk "00000000001").state.Create
        hostOk ⟨"", ∅⟩).result
      = .ok (running "00000000002" "/c/00000000002") ∧
    ¬ AdmissionDenied
      (((backend0.Create hostOk ⟨"", ∅⟩).state.Destroy hostOk "00000000001").state.Create
        hostOk ⟨"", ∅⟩).result :=
  ⟨rfl, rfl, rfl,
   (Create_after_Destroy hostOk hostOk (backend0.Create hostOk ⟨"", ∅⟩).state "00000000001"
      ⟨"", ∅⟩ rfl
      (fun h c hl => absurd (show (∅ : GoMap container).lookup h = some c from hl)
        (by simp))).2.1⟩

/-! ## Failure of Destroy, and Stop -/

/-- C20: for a registered handle, if the container's `Stop` returns an error, `Destroy`
returns that error after the one call of `Stop` (no directory is removed), and if `Stop`
succeeds and removing the working directory returns an error, `Destroy` returns that error;
in both cases the backend is unchanged and `Lookup` still returns the container. The entry
is gone afterwards only if both steps succeeded. -/
theorem Destroy_failure_atomic (host : Host) (backend : Backend) (handle : String)
    (c : container) (h : backend.containers.lookup handle = some c) :
    (∀ err, host.Stop c false = some err →
      (backend.Destroy host handle).result = some (.host err) ∧
      (backend.Destroy host handle).state = backend ∧
      (backend.Destroy host handle).effects = [.Stop c false] ∧
      ((backend.Destroy host handle).state.Lookup handle).result = .ok c) ∧
    (∀ err, host.Stop c false = none → host.RemoveAll c.workDir = some err →
      (backend.Destroy host handle).result = some (.host err) ∧
      (backend.Destroy host handle).state = backend ∧
      (backend.Destroy host handle).effects = [.Stop c false, .RemoveAll c.workDir] ∧
      ((backend.Destroy host handle).state.Lookup handle).result = .ok c) ∧
    ((backend.Destroy host handle).state.containers.lookup handle = none →
      host.Stop c false = none ∧ host.RemoveAll c.workDir = none ∧
      (backend.Destroy host handle).result = none) := by
  have hl : (backend.Lookup handle).result = .ok c := by
    unfold Backend.Lookup
    rw [h]
  unfold Backend.Destroy
  rw [h]
  refine ⟨?_, ?_, ?_⟩
  · intro err hs
    simp [hs, hl]
  · intro err hs hr
    simp [hs, hr, hl]
  · cases hs : host.Stop c false with
    | some err => simp [hs, h]
    | none =>
      cases hr : host.RemoveAll c.workDir with
      | some err => simp [hs, hr, h]
      | none => simp [hs, hr]

/-- C20 at a backend that holds the container `a`, on a host where `Stop` fails. -/
theorem Destroy_failure_atomic_witness :
    backend1.containers.lookup "a" = some (running "a" "/c/1") ∧
    (backend1.Destroy hostNoStop "a").result = some (.host ⟨"no such process"⟩) ∧
    (backend1.Destroy hostNoStop "a").state = backend1 ∧
    (backend1.Destroy hostNoStop "a").effects = [.Stop (running "a" "/c/1") false] ∧
    ((backend1.Destroy hostNoStop "a").state.Lookup "a").result = .ok (running "a" "/c/1") :=
  ⟨rfl, (Destroy_failure_atomic hostNoStop backend1 "a" (running "a" "/c/1") rfl).1
    ⟨"no such process"⟩ rfl⟩

theorem Destroy_lookup_ne (host : Host) (backend : Backend) (k h : String) (hne : h ≠ k) :
    (backend.Destroy host k).state.containers.lookup h = backend.containers.lookup h := by
  rcases Destroy_containers host backend k with hsame | herase
  · rw [hsame]
  · rw [herase]
    exact AList.lookup_erase_ne hne

theorem Destroy_lookup_none (host : Host) (backend : Backend) (k h : String)
    (hn : backend.containers.lookup h = none) :
    (backend.Destroy host k).state.containers.lookup h = none := by
  rcases Destroy_containers host backend k with hsame | herase
  · rw [hsame]
    exact hn
  · rw [herase]
    by_cases hk : h = k
    · rw [hk]
      exact AList.lookup_erase k _
    · rw [AList.lookup_erase_ne hk]
      exact hn

theorem Destroy_of_removable (host : Host) (backend : Backend) (k : String) (c : container)
    (hl : backend.containers.lookup k = some c) (hr : Removable host c) :
    (backend.Destroy host k).state.containers.lookup k = none := by
  unfold Backend.Destroy
  rw [hl]
  simp [hr.1, hr.2]

theorem Destroy_of_not_removable (host : Host) (backend : Backend) (k : String)
    (c : container) (hl : backend.containers.lookup k = some c) (hr : ¬ Removable host c) :
    (backend.Destroy host k).state = backend := by
  unfold Backend.Destroy
  rw [hl]
  unfold Removable at hr
  cases hs : host.Stop c false with
  | some err => simp [hs]
  | none =>
    cases hm : host.RemoveAll c.workDir with
    | some err => simp [hs, hm]
    | none => exact absurd ⟨hs, hm⟩ hr

theorem Destroy_effects_stop (host : Host) (backend : Backend) (k : String) (c : container)
    (hl : backend.containers.lookup k = some c) :
    Effect.Stop c false ∈ (backend.Destroy host k).effects := by
  unfold Backend.Destroy
  rw [hl]
  cases hs : host.Stop c false with
  | some err => simp [hs]
  | none =>
    cases hm : host.RemoveAll c.workDir with
    | some err => simp [hs, hm]
    | none => simp [hs, hm]

theorem destroyEach_lookup_none (host : Host) (cs : List container) (backend : Backend)
    (h : String) (hn : backend.containers.lookup h = none) :
    (Backend.destroyEach host backend cs).state.containers.lookup h = none := by
  induction cs generalizing backend with
  | nil => exact hn
  | cons x rest ih =>
    exact ih (backend.Destroy host x.Handle).state (Destroy_lookup_none host backend _ h hn)

theorem destroyEach_removable (host : Host) (cs : List container) (backend : Backend)
    (h : String) (c : container) (hl : backend.containers.lookup h = some c)
    (hmem : ∃ x ∈ cs, x.Handle = h) (hr : Removable host c) :
    (Backend.destroyEach host backend cs).state.containers.lookup h = none := by
  induction cs generalizing backend with
  | nil => simp at hmem
  | cons x rest ih =>
    show (Backend.destroyEach host (backend.Destroy host x.Handle).state rest).state.containers.lookup
      h = none
    by_cases hx : x.Handle = h
    · apply destroyEach_lookup_none
      rw [hx]
      exact Destroy_of_removable host backend h c hl hr
    · apply ih
      · rw [Destroy_lookup_ne host backend x.Handle h (Ne.symm hx)]
        exact hl
      · obtain ⟨y, hy, hyh⟩ := hmem
        rcases List.mem_cons.mp hy with rfl | hy'
        · exact absurd hyh hx
        · exact ⟨y, hy', hyh⟩

theorem destroyEach_not_removable (host : Host) (cs : List container) (backend : Backend)
    (h : String) (c : container) (hl : backend.containers.lookup h = some c)
    (hr : ¬ Removable host c) :
    (Backend.destroyEach host backend cs).state.containers.lookup h = some c := by
  induction cs generalizing backend with
  | nil => exact hl
  | cons x rest ih =>
    apply ih
    by_cases hx : x.Handle = h
    · rw [hx, Destroy_of_not_removable host backend h c hl hr]
      exact hl
    · rw [Destroy_lookup_ne host backend x.Handle h (Ne.symm hx)]
      exact hl

theorem destroyEach_effects_stop (host : Host) (cs : List container) (backend : Backend)
    (h : String) (c : container) (hl : backend.containers.lookup h = some c)
    (hmem : ∃ x ∈ cs, x.Handle = h) :
    Effect.Stop c false ∈ (Backend.destroyEach host backend cs).effects := by
  induction cs generalizing backend with
  | nil => simp at hmem
  | cons x rest ih =>
    show Effect.Stop c false ∈ (backend.Destroy host x.Handle).effects
      ++ (Backend.destroyEach host (backend.Destroy host x.Handle).state rest).effects
    rw [List.mem_append]
    by_cases hx : x.Handle = h
    · left
      rw [hx]
      exact Destroy_effects_stop host backend h c hl
    · right
      apply ih
      · rw [Destroy_lookup_ne host backend x.Handle h (Ne.symm hx)]
        exact hl
      · obtain ⟨y, hy, hyh⟩ := hmem
        rcases List.mem_cons.mp hy with rfl | hy'
        · exact absurd hyh hx
        · exact ⟨y, hy', hyh⟩

theorem Containers_empty_filter (backend : Backend) :
    (backend.Containers ∅).result.1 = backend.containers.entries.map (·.2) := by
  simp only [Backend.Containers, Backend.filterContainers, filterContainers_foldl,
    List.nil_append]
  congr 1
  apply List.filter_eq_self.mpr
  intro e _
  simp [Backend.containerHasProperties]

theorem GoMap_eq_empty {V : Type} (m : GoMap V) (h : ∀ k, m.lookup k = none) : m = ∅ := by
  apply AList.ext
  rw [AList.empty_entries, List.eq_nil_iff_forall_not_mem]
  intro e he
  have := lookup_of_mem_entries m e he
  rw [h e.1] at this
  exact Option.noConfusion this

theorem Create_error_containers (host : Host) (backend : Backend) (spec : ContainerSpec)
    (err : Error) (h : (backend.Create host spec).result = .error err) :
    (backend.Create host spec).state.containers = backend.containers := by
  unfold Backend.Create at h ⊢
  simp only [Backend.Capacity, ge_iff_le] at h ⊢
  by_cases hc : 1 ≤ Backend.countActive backend.containers
  · simp [hc]
  · simp only [hc, if_false] at h ⊢
    cases hm : host.MkdirAll
        (Join [(backend.generateContainerID).1.containersDir,
          (backend.generateContainerID).2]) with
    | some e => rfl
    | none => simp [hm] at h

theorem Reachable_HandlesAreKeys (backend : Backend) (h : Reachable backend) :
    HandlesAreKeys backend := by
  induction h with
  | fresh containersDir now =>
    intro e he
    simp [Backend.NewBackend] at he
  | @create b host spec _ ih =>
    cases hres : (b.Create host spec).result with
    | error err =>
      unfold HandlesAreKeys
      rw [Create_error_containers host b spec err hres]
      exact ih
    | ok c =>
      obtain ⟨hc, hs, -⟩ := Create_ok host b spec c hres
      unfold HandlesAreKeys
      rw [hs]
      intro e he
      simp only [AList.insert_entries, List.mem_cons] at he
      rcases he with rfl | he
      · rw [hc]
        rfl
      · exact ih e ((List.kerase_sublist _ _).subset he)
  | @destroy b host handle _ ih =>
    unfold HandlesAreKeys
    rcases Destroy_containers host b handle with hsame | herase
    · rw [hsame]
      exact ih
    · rw [herase]
      intro e he
      exact ih e ((List.kerase_sublist _ _).subset he)
  | @gain b handle c props _ hl _ ih =>
    intro e he
    simp only [AList.insert_entries, List.mem_cons] at he
    rcases he with rfl | he
    · exact ih ⟨handle, c⟩ (mem_entries_of_lookup _ handle c hl)
    · exact ih e ((List.kerase_sublist _ _).subset he)

/-- C18: on a backend whose containers answer `Handle()` with their keys (as in every
reachable state), `Stop` calls the `Stop` of every registered container, whether or not
another one fails; afterwards a container whose stop and directory removal succeed is no
longer registered, one for which either fails is still registered, and if they succeed for
all containers the registry is empty. -/
theorem Stop_best_effort (host : Host) (backend : Backend) (hk : HandlesAreKeys backend) :
    (∀ h c, backend.containers.lookup h = some c →
      Effect.Stop c false ∈ (backend.Stop host).effects) ∧
    (∀ h c, backend.containers.lookup h = some c → Removable host c →
      (backend.Stop host).state.containers.lookup h = none) ∧
    (∀ h c, backend.containers.lookup h = some c → ¬ Removable host c →
      (backend.Stop host).state.containers.lookup h = some c) ∧
    ((∀ h c, backend.containers.lookup h = some c → Removable host c) →
      (backend.Stop host).state.containers = ∅) := by
  have hmem : ∀ h c, backend.containers.lookup h = some c →
      ∃ x ∈ (backend.Containers ∅).result.1, x.Handle = h := by
    intro h c hl
    have he := mem_entries_of_lookup _ h c hl
    refine ⟨c, ?_, hk _ he⟩
    rw [Containers_empty_filter]
    exact List.mem_map.mpr ⟨_, he, rfl⟩
  have hrem : ∀ h c, backend.containers.lookup h = some c → Removable host c →
      (backend.Stop host).state.containers.lookup h = none := fun h c hl hr =>
    destroyEach_removable host _ backend h c hl (hmem h c hl) hr
  refine ⟨?_, hrem, ?_, ?_⟩
  · intro h c hl
    exact destroyEach_effects_stop host _ backend h c hl (hmem h c hl)
  · intro h c hl hr
    exact destroyEach_not_removable host _ backend h c hl hr
  · intro hall
    apply GoMap_eq_empty
    intro k
    cases hl : backend.containers.lookup k with
    | none => exact destroyEach_lookup_none host _ backend k hl
    | some c => exact hrem k c hl (hall k c hl)

/-- C18 at a backend with three containers, on a host where the directory of `b` cannot be
removed: all three are stopped, `a` and `d` are gone and `b` is still registered. -/
theorem Stop_best_effort_witness :
    HandlesAreKeys backend3 ∧
    (backend3.Stop hostKeep2).effects
      = [.Stop (running "d" "/c/3") false, .RemoveAll "/c/3",
         .Stop (exited "b" "/c/2") false, .RemoveAll "/c/2",
         .Stop (exited "a" "/c/1") false, .RemoveAll "/c/1"] ∧
    Effect.Stop (exited "a" "/c/1") false ∈ (backend3.Stop hostKeep2).effects ∧
    (backend3.Stop hostKeep2).state.containers.lookup "a" = none ∧
    (backend3.Stop hostKeep2).state.containers.lookup "b" = some (exited "b" "/c/2") :=
  have hk : HandlesAreKeys backend3 := by
    intro e he
    have he' : e ∈ [⟨"d", running "d" "/c/3"⟩, ⟨"b", exited "b" "/c/2"⟩,
        (⟨"a", exited "a" "/c/1"⟩ : (_ : String) × container)] := he
    simp only [List.mem_cons, List.mem_singleton, List.not_mem_nil, or_false] at he'
    rcases he' with rfl | rfl | rfl <;> rfl
  have t := Stop_best_effort hostKeep2 backend3 hk
  ⟨hk, rfl, t.1 "a" _ rfl, t.2.1 "a" (exited "a" "/c/1") rfl ⟨rfl, rfl⟩,
   t.2.2.1 "b" (exited "b" "/c/2") rfl (fun hr => by
     have h2 : hostKeep2.RemoveAll "/c/2" = none := hr.2
     exact absurd h2 (by decide))⟩

/-! ## Handle generation -/

theorem AppendUint_digit (dst : List Char) (d : Nat) (h : d < 32) :
    AppendUint dst d 32 = dst ++ [digitOf d] := by
  unfold AppendUint
  show dst ++ formatBits (63 + 1) d 32 [] = _
  simp [formatBits, h]

theorem foldl_AppendUint (d : Nat → Nat) (hd : ∀ i, d i < 32) (l : List Nat)
    (init : List Char) :
    l.foldl (fun containerID i => AppendUint containerID (d i) 32) init
      = init ++ l.map (fun i => digitOf (d i)) := by
  induction l generalizing init with
  | nil => simp
  | cons i l ih => rw [List.foldl_cons, ih, AppendUint_digit _ _ (hd i)]; simp

theorem and_31_lt (x : Nat) : x &&& 31 < 32 :=
  Nat.lt_succ_of_le Nat.and_le_right

theorem digitOf_eq_base32Digit : ∀ d < 32, digitOf d = base32Digit d := by
  decide

theorem base32Digit_printable : ∀ d < 32,
    base32Digit d ∈ base32Alphabet ∧ 32 < (base32Digit d).toNat ∧
    (base32Digit d).toNat < 127 ∧ base32Digit d ≠ '/' ∧ base32Digit d ≠ '\\' := by
  decide

theorem generateContainerID_eq (backend : Backend) :
    backend.generateContainerID
      = ({ backend with containerNum := (backend.containerNum + 1) % 2 ^ 32 },
         referenceID ((backend.containerNum + 1) % 2 ^ 32)) := by
  unfold Backend.generateContainerID referenceID
  simp only
  rw [foldl_AppendUint (fun i => ((backend.containerNum + 1) % 2 ^ 32) >>> (55 - (i + 1) * 5)
    &&& 31) (fun i => and_31_lt _)]
  congr 2
  rw [List.nil_append]
  apply List.map_congr_left
  intro k _
  rw [digitOf_eq_base32Digit _ (and_31_lt _)]
  have hk : 55 - (k + 1) * 5 = 50 - 5 * k := by omega
  rw [hk]

/-- C13: `generateContainerID` sets the counter to `c + 1` modulo `2 ^ 32` and returns the
reference encoding of the new value: eleven characters, of which the `k`-th, most significant
first, is the digit in `0`-`9`, `a`-`v` of the 5-bit group `(c' >> (50 - 5k)) & 31`; every
character is printable ASCII and none is a slash or a backslash. -/
theorem generateContainerID_reference (backend : Backend) :
    backend.generateContainerID.1
      = { backend with containerNum := (backend.containerNum + 1) % 2 ^ 32 } ∧
    backend.generateContainerID.2.toList
      = (List.range 11).map (fun k =>
          base32Digit ((((backend.containerNum + 1) % 2 ^ 32) >>> (50 - 5 * k)) &&& 31)) ∧
    backend.generateContainerID.2 = referenceID ((backend.containerNum + 1) % 2 ^ 32) ∧
    backend.generateContainerID.2.length = 11 ∧
    ∀ ch ∈ backend.generateContainerID.2.toList,
      ch ∈ base32Alphabet ∧ 32 < ch.toNat ∧ ch.toNat < 127 ∧ ch ≠ '/' ∧ ch ≠ '\\' := by
  rw [generateContainerID_eq]
  refine ⟨rfl, rfl, rfl, ?_, ?_⟩
  · simp [referenceID, String.length]
  · intro ch hch
    simp only [referenceID, String.toList, List.mem_map] at hch
    obtain ⟨k, -, rfl⟩ := hch
    exact base32Digit_printable _ (and_31_lt _)

theorem shiftRight_and_31 (c s : Nat) : (c >>> s) &&& 31 = c / 2 ^ s % 32 := by
  rw [Nat.shiftRight_eq_div_pow]
  exact Nat.and_pow_two_sub_one_eq_mod _ 5

theorem referenceID_eq_digitsBE (c : Nat) :
    referenceID c = String.mk ((digitsBE 11 c).map base32Digit) := by
  unfold referenceID
  have hr : List.range 11 = [0, 1, 2, 3, 4, 5, 6, 7, 8, 9, 10] := by decide
  rw [hr]
  simp only [List.map_cons, List.map_nil, digitsBE, shiftRight_and_31]
  norm_num

theorem base32Digit_strictMono : ∀ a < 32, ∀ b < 32, a < b → base32Digit a < base32Digit b := by
  decide

theorem base32Digit_injOn : ∀ a < 32, ∀ b < 32, base32Digit a = base32Digit b → a = b := by
  decide

theorem digitsBE_map_inj (w a b : Nat)
    (h : (digitsBE w a).map base32Digit = (digitsBE w b).map base32Digit) :
    a % 32 ^ w = b % 32 ^ w := by
  induction w with
  | zero => simp [Nat.mod_one]
  | succ w ih =>
    simp only [digitsBE, List.map_cons, List.cons.injEq] at h
    have hd := base32Digit_injOn _ (Nat.mod_lt _ (by norm_num)) _ (Nat.mod_lt _ (by norm_num)) h.1
    rw [Nat.mod_pow_succ, Nat.mod_pow_succ, ih h.2, hd]

theorem digitsBE_map_lt (w a b : Nat) (h : a % 32 ^ w < b % 32 ^ w) :
    List.Lex (· < ·) ((digitsBE w a).map base32Digit) ((digitsBE w b).map base32Digit) := by
  induction w with
  | zero => simp [Nat.mod_one] at h
  | succ w ih =>
    simp only [digitsBE, List.map_cons]
    rw [Nat.mod_pow_succ, Nat.mod_pow_succ] at h
    have ha : a / 32 ^ w % 32 < 32 := Nat.mod_lt _ (by norm_num)
    have hb : b / 32 ^ w % 32 < 32 := Nat.mod_lt _ (by norm_num)
    have hpos : 0 < 32 ^ w := Nat.pow_pos (by norm_num)
    have hra : a % 32 ^ w < 32 ^ w := Nat.mod_lt _ hpos
    have hrb : b % 32 ^ w < 32 ^ w := Nat.mod_lt _ hpos
    rcases Nat.lt_trichotomy (a / 32 ^ w % 32) (b / 32 ^ w % 32) with hlt | heq | hgt
    · exact List.Lex.rel (base32Digit_strictMono _ ha _ hb hlt)
    · rw [heq] at h ⊢
      exact List.Lex.cons (ih (by omega))
    · exfalso
      have hmul : 32 ^ w * (b / 32 ^ w % 32 + 1) ≤ 32 ^ w * (a / 32 ^ w % 32) :=
        Nat.mul_le_mul_left _ hgt
      rw [Nat.mul_add, Nat.mul_one] at hmul
      omega

theorem generated_eq (backend : Backend) (n : Nat) :
    generated backend n = referenceID ((backend.containerNum + n + 1) % 2 ^ 32) := by
  induction n generalizing backend with
  | zero =>
    simp only [generated, generateContainerID_eq]
  | succ n ih =>
    simp only [generated, generateContainerID_eq]
    rw [ih]
    congr 1
    simp only
    omega

theorem referenceID_injective (c₁ c₂ : Nat) (h₁ : c₁ < 2 ^ 32) (h₂ : c₂ < 2 ^ 32)
    (h : referenceID c₁ = referenceID c₂) : c₁ = c₂ := by
  rw [referenceID_eq_digitsBE, referenceID_eq_digitsBE] at h
  have hmod := digitsBE_map_inj 11 c₁ c₂ (congrArg String.data h)
  norm_num at hmod h₁ h₂
  omega

/-- C14: the handle that `generateContainerID` computes determines the 32-bit counter value
it was computed from, and in a row of calls on one backend, from any seed, two of the first
`2 ^ 32` handles generated are distinct. -/
theorem generated_distinct (b₁ b₂ : Backend) (i j : Nat)
    (h₁ : b₁.containerNum < 2 ^ 32) (h₂ : b₂.containerNum < 2 ^ 32)
    (hi : i < 2 ^ 32) (hj : j < 2 ^ 32) :
    (b₁.generateContainerID.2 = b₂.generateContainerID.2 →
      b₁.containerNum = b₂.containerNum) ∧
    (i ≠ j → generated b₁ i ≠ generated b₁ j) := by
  constructor
  · intro h
    rw [generateContainerID_eq, generateContainerID_eq] at h
    have := referenceID_injective _ _ (Nat.mod_lt _ (by norm_num)) (Nat.mod_lt _ (by norm_num)) h
    omega
  · intro hij h
    rw [generated_eq, generated_eq] at h
    have := referenceID_injective _ _ (Nat.mod_lt _ (by norm_num)) (Nat.mod_lt _ (by norm_num)) h
    omega

/-- C14 at a seed two steps from the wrap-around, for the first and the 10,000th handle. -/
theorem generated_distinct_witness :
    backendWrap.containerNum < 2 ^ 32 ∧ backend0.containerNum < 2 ^ 32 ∧
    backendWrap.generateContainerID.2 ≠ backend0.generateContainerID.2 ∧
    generated backendWrap 0 ≠ generated backendWrap 9999 :=
  have t := generated_distinct backendWrap backend0 0 9999 (by decide) (by decide)
    (by decide) (by decide)
  ⟨by decide, by decide, fun h => absurd (t.1 h) (by decide), t.2 (by decide)⟩

/-- C15, as stated, fails: on a backend whose counter is `2 ^ 32 - 2`, the first handle
generated is `00003vvvvvv` and the second, after the counter has wrapped around to 0, is
`00000000000`, which is smaller. -/
theorem generated_sorted_counterexample :
    generated backendWrap 0 = "00003vvvvvv" ∧
    generated backendWrap 1 = "00000000000" ∧
    ¬ lexLt (generated backendWrap 0) (generated backendWrap 1) ∧
    lexLt (generated backendWrap 1) (generated backendWrap 0) := by
  have h0 : generated backendWrap 0 = "00003vvvvvv" := by decide
  have h1 : generated backendWrap 1 = "00000000000" := by decide
  refine ⟨h0, h1, ?_, ?_⟩
  · rw [h0, h1]
    unfold lexLt
    decide
  · rw [h0, h1]
    unfold lexLt
    decide

theorem counterAfter_eq (backend : Backend) (n : Nat) :
    counterAfter backend n = (backend.containerNum + n + 1) % 2 ^ 32 := by
  induction n generalizing backend with
  | zero => simp only [counterAfter, generateContainerID_eq]
  | succ n ih =>
    simp only [counterAfter, generateContainerID_eq]
    rw [ih]
    simp only
    omega

/-- C15, amended: of two handles generated by the same backend, the one generated earlier
is strictly smaller in lexicographic order than the one generated later, as long as the
counter does not wrap around from `2 ^ 32 - 1` to 0 between the two: the value of the counter
at the earlier handle plus the number of calls up to the later one stays below `2 ^ 32`.
If the counter does wrap around between them, once, the later handle is the smaller one. -/
theorem generated_sorted (backend : Backend) (i j : Nat) (hij : i < j) :
    (counterAfter backend i + (j - i) < 2 ^ 32 →
      lexLt (generated backend i) (generated backend j)) ∧
    (2 ^ 32 ≤ counterAfter backend i + (j - i) → j - i < 2 ^ 32 →
      lexLt (generated backend j) (generated backend i)) := by
  have hc := counterAfter_eq backend i
  constructor
  · intro hw
    unfold lexLt
    rw [generated_eq, generated_eq, referenceID_eq_digitsBE, referenceID_eq_digitsBE]
    apply digitsBE_map_lt
    norm_num at hw hc ⊢
    omega
  · intro hw hlt
    unfold lexLt
    rw [generated_eq, generated_eq, referenceID_eq_digitsBE, referenceID_eq_digitsBE]
    apply digitsBE_map_lt
    norm_num at hw hlt hc ⊢
    omega

/-- C15, amended, at a backend whose counter is `2 ^ 32 - 2`: the second and the third
handle, both generated after the counter has wrapped around, are in order, and the first
and the second, with the wrap between them, are in the opposite order. -/
theorem generated_sorted_witness :
    (generated backendWrap 1 = "00000000000" ∧ generated backendWrap 2 = "00000000001" ∧
      counterAfter backendWrap 1 + (2 - 1) < 2 ^ 32 ∧
      lexLt (generated backendWrap 1) (generated backendWrap 2)) ∧
    (2 ^ 32 ≤ counterAfter backendWrap 0 + (1 - 0) ∧
      lexLt (generated backendWrap 1) (generated backendWrap 0)) :=
  ⟨⟨by decide, by decide, by decide,
    (generated_sorted backendWrap 1 2 (by decide)).1 (by decide)⟩,
   ⟨by decide, (generated_sorted backendWrap 0 1 (by decide)).2 (by decide) (by decide)⟩⟩

/-! ## The environment that `setUser` writes -/

theorem dotStarThen_true (atStart : Bool) (xs : List Char) :
    dotStarThen (fun _ _ => true) atStart xs = true := by
  cases xs <;> simp [dotStarThen]

theorem matchAt_literal (lit : List Char) (atStart : Bool) (xs : List Char) :
    matchAt (lit.map .char ++ [.dotStar]) atStart xs = decide (lit <+: xs) := by
  induction lit generalizing atStart xs with
  | nil => simp [matchAt, dotStarThen_true]
  | cons c lit ih =>
    cases xs with
    | nil => simp [matchAt]
    | cons x xs =>
      simp only [List.map_cons, List.cons_append, matchAt, ih, List.cons_prefix_cons]
      by_cases hx : x = c
      · simp [hx, ih]
      · have hc : ¬ c = x := fun h => hx h.symm
        simp [hx, hc]

theorem search_bol_false (re : List Re) (xs : List Char) :
    search (.bol :: re) false xs = false := by
  induction xs with
  | nil => simp [search, matchAt]
  | cons x xs ih => simp [search, matchAt, ih]

theorem Match_literal (lit : List Char) (e : String) :
    Match (.bol :: (lit.map .char ++ [.dotStar])) e = decide (lit <+: e.toList) := by
  unfold Match
  cases h : e.toList with
  | nil => simp [search, matchAt, matchAt_literal]
  | cons x xs => simp [search, matchAt, matchAt_literal, search_bol_false]

theorem Match_USER (e : String) :
    Match (compile "^USER=.*".toList) e = decide (BeginsWith "USER=" e) :=
  Match_literal "USER=".toList e

theorem Match_USERNAME (e : String) :
    Match (compile "^USERNAME=.*".toList) e = decide (BeginsWith "USERNAME=" e) :=
  Match_literal "USERNAME=".toList e

theorem Match_HOME (e : String) :
    Match (compile "^HOME=.*".toList) e = decide (BeginsWith "HOME=" e) :=
  Match_literal "HOME=".toList e

theorem foldl_keep (keep : String → Bool) (l : List String) (init : List String) :
    l.foldl (fun env envVar => if keep envVar then env ++ [envVar] else env) init
      = init ++ l.filter keep := by
  induction l generalizing init with
  | nil => simp
  | cons e l ih =>
    rw [List.foldl_cons, ih, List.filter_cons]
    by_cases h : keep e = true
    · simp [h]
    · simp [h]

theorem setUser_ok (os : OS) (cmd : Cmd) (spec : ProcessSpec)
    (h : (setUser os cmd spec).2 = none) :
    ∃ runAs, os.Lookup spec.User = .ok runAs ∧
      (setUser os cmd spec).1.Env
        = cmd.Env.filter (fun e => decide (¬ IsIdentityVar e))
          ++ ["USER=" ++ runAs.Username, "USERNAME=" ++ runAs.Username,
              "HOME=" ++ runAs.HomeDir] := by
  unfold setUser at h ⊢
  cases hl : os.Lookup spec.User with
  | error err => simp [hl] at h
  | ok runAs =>
    refine ⟨runAs, rfl, ?_⟩
    simp only [hl] at h ⊢
    cases hu : ParseUint runAs.Uid 32 with
    | error err => simp [hu] at h
    | ok uid =>
      simp only [hu] at h ⊢
      cases hg : ParseUint runAs.Gid 32 with
      | error err => simp [hg] at h
      | ok gid =>
        simp only [hg] at h ⊢
        cases hc : chownR os cmd.Dir uid gid with
        | some err => simp [hc] at h
        | none =>
          simp only [Match_USER, Match_USERNAME, Match_HOME, foldl_keep, List.nil_append,
            List.append_assoc, List.cons_append]
          congr 1
          apply List.filter_congr
          intro e _
          simp [IsIdentityVar, Bool.and_assoc]

theorem toList_USER (u : String) :
    ("USER=" ++ u).toList = 'U' :: 'S' :: 'E' :: 'R' :: '=' :: u.toList := rfl

theorem toList_USERNAME (u : String) :
    ("USERNAME=" ++ u).toList
      = 'U' :: 'S' :: 'E' :: 'R' :: 'N' :: 'A' :: 'M' :: 'E' :: '=' :: u.toList := rfl

theorem toList_HOME (u : String) :
    ("HOME=" ++ u).toList = 'H' :: 'O' :: 'M' :: 'E' :: '=' :: u.toList := rfl

theorem lit_USER : "USER=".toList = ['U', 'S', 'E', 'R', '='] := rfl

theorem lit_USERNAME : "USERNAME=".toList = ['U', 'S', 'E', 'R', 'N', 'A', 'M', 'E', '='] := rfl

theorem lit_HOME : "HOME=".toList = ['H', 'O', 'M', 'E', '='] := rfl

theorem countP_rewritten (p : String) (l : List String) (u h : String)
    (hp : ∀ e, BeginsWith p e → IsIdentityVar e)
    (hone : ([("USER=" ++ u), ("USERNAME=" ++ u), ("HOME=" ++ h)] : List String).countP
      (fun e => decide (BeginsWith p e)) = 1) :
    (l.filter (fun e => decide (¬ IsIdentityVar e))
      ++ ["USER=" ++ u, "USERNAME=" ++ u, "HOME=" ++ h]).countP
        (fun e => decide (BeginsWith p e)) = 1 := by
  rw [List.countP_append, hone, Nat.add_left_eq_self, List.countP_eq_zero]
  intro e he
  have hn : ¬ IsIdentityVar e := by simpa using (List.mem_filter.mp he).2
  have : ¬ BeginsWith p e := fun hb => hn (hp e hb)
  simpa using this

/-- C17: when `setUser` returns no error, the environment of the command is the input list
without the entries that begin with `USER=`, `USERNAME=` or `HOME=`, the others in their
order, followed by `USER=u`, `USERNAME=u`, `HOME=h` for the name `u` and the home directory
`h` of the user that the lookup returned; so exactly one entry begins with `USER=`, one
with `USERNAME=` and one with `HOME=`. -/
theorem setUser_env (os : OS) (cmd : Cmd) (spec : ProcessSpec)
    (h : (setUser os cmd spec).2 = none) :
    ∃ runAs, os.Lookup spec.User = .ok runAs ∧
      (setUser os cmd spec).1.Env
        = cmd.Env.filter (fun e => decide (¬ IsIdentityVar e))
          ++ ["USER=" ++ runAs.Username, "USERNAME=" ++ runAs.Username,
              "HOME=" ++ runAs.HomeDir] ∧
      (setUser os cmd spec).1.Env.countP (fun e => decide (BeginsWith "USER=" e)) = 1 ∧
      (setUser os cmd spec).1.Env.countP (fun e => decide (BeginsWith "USERNAME=" e)) = 1 ∧
      (setUser os cmd spec).1.Env.countP (fun e => decide (BeginsWith "HOME=" e)) = 1 := by
  obtain ⟨runAs, hl, henv⟩ := setUser_ok os cmd spec h
  refine ⟨runAs, hl, henv, ?_, ?_, ?_⟩
  · rw [henv]
    apply countP_rewritten _ _ _ _ (fun e hb => Or.inl hb)
    simp [BeginsWith, toList_USER, toList_USERNAME, toList_HOME, lit_USER,
      List.cons_prefix_cons, List.countP_cons]
  · rw [henv]
    apply countP_rewritten _ _ _ _ (fun e hb => Or.inr (Or.inl hb))
    simp [BeginsWith, toList_USER, toList_USERNAME, toList_HOME, lit_USERNAME,
      List.cons_prefix_cons, List.countP_cons]
  · rw [henv]
    apply countP_rewritten _ _ _ _ (fun e hb => Or.inr (Or.inr hb))
    simp [BeginsWith, toList_USER, toList_USERNAME, toList_HOME, lit_HOME,
      List.cons_prefix_cons, List.countP_cons]

/-- C17 for the user `alice` and an environment that names `root`. -/
theorem setUser_env_witness :
    (setUser osAlice cmdRoot ⟨"alice"⟩).2 = none ∧
    (setUser osAlice cmdRoot ⟨"alice"⟩).1.Env
      = ["PATH=/bin", "MYUSER=x", "USER=alice", "USERNAME=alice", "HOME=/home/alice"] ∧
    ∃ runAs, osAlice.Lookup "alice" = .ok runAs ∧
      (setUser osAlice cmdRoot ⟨"alice"⟩).1.Env
        = cmdRoot.Env.filter (fun e => decide (¬ IsIdentityVar e))
          ++ ["USER=" ++ runAs.Username, "USERNAME=" ++ runAs.Username,
              "HOME=" ++ runAs.HomeDir] ∧
      (setUser osAlice cmdRoot ⟨"alice"⟩).1.Env.countP
        (fun e => decide (BeginsWith "USER=" e)) = 1 ∧
      (setUser osAlice cmdRoot ⟨"alice"⟩).1.Env.countP
        (fun e => decide (BeginsWith "USERNAME=" e)) = 1 ∧
      (setUser osAlice cmdRoot ⟨"alice"⟩).1.Env.countP
        (fun e => decide (BeginsWith "HOME=" e)) = 1 :=
  ⟨by decide, by decide, setUser_env osAlice cmdRoot ⟨"alice"⟩ (by decide)⟩

/-! ## Streaming -/

theorem lookup_of_mem_entries_tree {tree : Tree} (e : (_ : List String) × Node)
    (he : e ∈ tree.entries) : tree.lookup e.1 = some e.2 := by
  have h : e.2 ∈ tree.lookup e.1 := AList.mem_lookup_iff.mpr (by simpa using he)
  simpa using h

theorem archiveEntry_node (path : List String) (node : Node) :
    (archiveEntry path node).node = node := by
  cases node with
  | dir => rfl
  | file content => simp [archiveEntry, ArchiveEntry.node]

theorem archiveEntry_path (path : List String) (node : Node) :
    (archiveEntry path node).header.path = path := by
  cases node <;> rfl

theorem mem_parents {path q : List String} (h : q ∈ parents path) :
    q <+: path ∧ q ≠ [] ∧ q ≠ path := by
  unfold parents at h
  have hf := List.mem_filter.mp h
  exact ⟨(List.mem_inits _ _).mp hf.1, by simpa using hf.2⟩

theorem mkdir_agree (tree m : Tree) (q : List String)
    (ha : ∀ p v, m.lookup p = some v → tree.lookup p = some v)
    (hq : tree.lookup q = some .dir) :
    ∀ p v, (mkdir m q).lookup p = some v → tree.lookup p = some v := by
  intro p v hl
  unfold mkdir at hl
  by_cases hm : q ∈ m
  · rw [if_pos hm] at hl
    exact ha p v hl
  · rw [if_neg hm] at hl
    by_cases hp : p = q
    · subst hp
      rw [AList.lookup_insert] at hl
      rw [hq, ← hl]
    · rw [AList.lookup_insert_ne hp] at hl
      exact ha p v hl

theorem mkdir_mono (m : Tree) (q p : List String) (h : p ∈ m) : p ∈ mkdir m q := by
  unfold mkdir
  by_cases hm : q ∈ m
  · rw [if_pos hm]
    exact h
  · rw [if_neg hm]
    exact (AList.mem_insert m).mpr (Or.inr h)

theorem foldl_mkdir_agree (tree : Tree) (qs : List (List String)) (m : Tree)
    (ha : ∀ p v, m.lookup p = some v → tree.lookup p = some v)
    (hq : ∀ q ∈ qs, tree.lookup q = some .dir) :
    ∀ p v, (qs.foldl mkdir m).lookup p = some v → tree.lookup p = some v := by
  induction qs generalizing m with
  | nil => exact ha
  | cons q qs ih =>
    exact ih (mkdir m q)
      (mkdir_agree tree m q ha (hq q (List.mem_cons_self _ _)))
      (fun r hr => hq r (List.mem_cons_of_mem _ hr))

theorem foldl_mkdir_mono (qs : List (List String)) (m : Tree) (p : List String)
    (h : p ∈ m) : p ∈ qs.foldl mkdir m := by
  induction qs generalizing m with
  | nil => exact h
  | cons q qs ih => exact ih (mkdir m q) (mkdir_mono m q p h)

theorem extract_agree (tree m : Tree) (hw : IsDirectoryTree tree) (path : List String)
    (node : Node) (ht : tree.lookup path = some node)
    (ha : ∀ p v, m.lookup p = some v → tree.lookup p = some v) :
    ∀ p v, (extract m (archiveEntry path node)).lookup p = some v →
      tree.lookup p = some v := by
  intro p v hl
  unfold extract at hl
  rw [archiveEntry_path, archiveEntry_node] at hl
  by_cases hp : p = path
  · subst hp
    rw [AList.lookup_insert] at hl
    rw [ht, ← hl]
  · rw [AList.lookup_insert_ne hp] at hl
    refine foldl_mkdir_agree tree (parents path) m ha ?_ p v hl
    intro q hq
    obtain ⟨hpre, hne, hnp⟩ := mem_parents hq
    exact hw path (AList.lookup_isSome.mp (by simp [ht])) q hpre hne hnp

theorem extract_mono (m : Tree) (e : ArchiveEntry) (p : List String) (h : p ∈ m) :
    p ∈ extract m e := by
  unfold extract
  exact (AList.mem_insert _).mpr (Or.inr (foldl_mkdir_mono _ m p h))

theorem extract_mem (m : Tree) (e : ArchiveEntry) : e.header.path ∈ extract m e := by
  unfold extract
  exact (AList.mem_insert _).mpr (Or.inl rfl)

theorem StreamIn_entries (tree : Tree) (hw : IsDirectoryTree tree)
    (l : List ((_ : List String) × Node)) (hl : ∀ e ∈ l, tree.lookup e.1 = some e.2)
    (m : Tree) (ha : ∀ p v, m.lookup p = some v → tree.lookup p = some v) :
    (∀ p v, (StreamIn m (l.map fun e => archiveEntry e.1 e.2)).lookup p = some v →
      tree.lookup p = some v) ∧
    (∀ p, p ∈ m → p ∈ StreamIn m (l.map fun e => archiveEntry e.1 e.2)) ∧
    (∀ e ∈ l, e.1 ∈ StreamIn m (l.map fun e => archiveEntry e.1 e.2)) := by
  induction l generalizing m with
  | nil => exact ⟨ha, fun _ h => h, fun _ h => absurd h (List.not_mem_nil _)⟩
  | cons e l ih =>
    have hstep := extract_agree tree m hw e.1 e.2 (hl e (List.mem_cons_self _ _)) ha
    obtain ⟨h1, h2, h3⟩ := ih (fun x hx => hl x (List.mem_cons_of_mem _ hx))
      (extract m (archiveEntry e.1 e.2)) hstep
    refine ⟨h1, fun p hp => h2 p (extract_mono m _ p hp), ?_⟩
    intro x hx
    rcases List.mem_cons.mp hx with rfl | hx'
    · apply h2
      have := extract_mem m (archiveEntry x.1 x.2)
      rwa [archiveEntry_path] at this
    · exact h3 x hx'

/-- C19: for every directory tree below a working directory, extracting with `StreamIn`,
into the empty working directory of a fresh container, the archive stream that `StreamOut`
produced for the tree gives a tree with the same paths, the same directories and the same
file contents. -/
theorem StreamIn_StreamOut (tree : Tree) (hw : IsDirectoryTree tree) :
    ∀ p, (StreamIn ∅ (StreamOut tree)).lookup p = tree.lookup p := by
  obtain ⟨hagree, -, hmem⟩ := StreamIn_entries tree hw tree.entries
    (fun e he => lookup_of_mem_entries_tree e he) ∅
    (fun p v h => by simp at h)
  intro p
  cases ht : tree.lookup p with
  | none =>
    cases hr : (StreamIn ∅ (StreamOut tree)).lookup p with
    | none => rfl
    | some v =>
      have := hagree p v hr
      rw [ht] at this
      exact Option.noConfusion this
  | some v =>
    have hin : p ∈ StreamIn ∅ (StreamOut tree) :=
      hmem ⟨p, v⟩ (AList.mem_lookup_iff.mp (by simp [ht]))
    cases hr : (StreamIn ∅ (StreamOut tree)).lookup p with
    | none => exact absurd hin (AList.lookup_eq_none.mp hr)
    | some v' =>
      have := hagree p v' hr
      rw [ht] at this
      exact this.symm

theorem treeA_isDirectoryTree : IsDirectoryTree treeA := by
  intro p hp q hq hne hnp
  have hkeys : p ∈ [["foo", "in-foo-b"], ["foo", "in-foo-a"], ["foo"], ["b"], ["a"]] :=
    AList.mem_keys.mp hp
  have hinits := (List.mem_inits q p).mpr hq
  simp only [List.mem_cons, List.mem_singleton, List.not_mem_nil, or_false] at hkeys
  rcases hkeys with rfl | rfl | rfl | rfl | rfl <;>
    simp only [List.inits, List.map, List.mem_cons, List.mem_singleton, List.not_mem_nil,
      or_false] at hinits <;>
    rcases hinits with rfl | rfl | hinits <;>
    first
      | exact absurd rfl hne
      | exact absurd rfl hnp
      | rfl
      | (subst hinits; exact absurd rfl hnp)

/-- C19 for the tree of the streaming test: the files `a`, `b`, `foo/in-foo-a` and
`foo/in-foo-b` exist in the destination container. -/
theorem StreamIn_StreamOut_witness :
    IsDirectoryTree treeA ∧
    (StreamIn ∅ (StreamOut treeA)).lookup ["a"] = some (.file []) ∧
    (StreamIn ∅ (StreamOut treeA)).lookup ["b"] = some (.file []) ∧
    (StreamIn ∅ (StreamOut treeA)).lookup ["foo", "in-foo-a"] = some (.file []) ∧
    (StreamIn ∅ (StreamOut treeA)).lookup ["foo", "in-foo-b"] = some (.file []) ∧
    (StreamIn ∅ (StreamOut treeA)).lookup ["foo"] = some .dir ∧
    (StreamIn ∅ (StreamOut treeA)).lookup ["c"] = none :=
  have t := StreamIn_StreamOut treeA treeA_isDirectoryTree
  ⟨treeA_isDirectoryTree, (t ["a"]).trans rfl, (t ["b"]).trans rfl,
   (t ["foo", "in-foo-a"]).trans rfl, (t ["foo", "in-foo-b"]).trans rfl,
   (t ["foo"]).trans rfl, (t ["c"]).trans rfl⟩

end Houdini

